import Mathlib

/-!
Verification of the aartisan `port` command (src/cli/commands/port.js).

The JavaScript source is shallowly embedded: Babel AST nodes become a small
mutual inductive family (`Expr`, `Stmt`, `JSXElem`, ...); the AST-mutating
enhancement strategies become pure functions from trees to trees paired with
the `modified` flags the source threads through `traverse` callbacks.  Since
the source parses a code string, mutates the tree and re-prints it (or
returns the original string when nothing was modified), "code" is modelled
as the AST itself and "byte-identical output" as equality of trees.
-/

namespace Aartisan

/-! ### String helpers

`/pat/i.test(name)` in the source is a case-insensitive substring test;
`String.includes` is a case-sensitive one.  Both are modelled on character
lists.  `toLowerCase` is modelled on the ASCII range, which covers every
pattern and attribute the source manipulates. -/

/-- ASCII model of `String.prototype.toLowerCase` on one character. -/
def lowerChar (c : Char) : Char :=
  if 65 ≤ c.toNat && c.toNat ≤ 90 then Char.ofNat (c.toNat + 32) else c

/-- ASCII model of `String.prototype.toLowerCase`. -/
def strToLower (s : String) : String := ⟨s.data.map lowerChar⟩

/-- Does `s` start with the pattern `pat` (character lists)? -/
def strMatchAt : List Char → List Char → Bool
  | [], _ => true
  | _ :: _, [] => false
  | a :: as, b :: bs => a == b && strMatchAt as bs

/-- Does the pattern occur as a contiguous substring of `s`? -/
def strHasSub (pat : List Char) : List Char → Bool
  | [] => strMatchAt pat []
  | b :: bs => strMatchAt pat (b :: bs) || strHasSub pat bs

/-- Model of `String.prototype.startsWith` on character lists (the core
`String.startsWith` is extern-backed and does not reduce in the kernel). -/
def strStartsWith (s pre : String) : Bool :=
  strMatchAt pre.data s.data

/-- Model of the case-insensitive regex test `/pat/i.test(s)` used by
`inferPurpose` (all patterns there are plain lowercase words). -/
def ciTest (pat : String) (s : String) : Bool :=
  strHasSub (strToLower pat).data (strToLower s).data

/-- Model of the case-sensitive `String.prototype.includes`. -/
def containsStr (sub : String) (s : String) : Bool :=
  strHasSub sub.data s.data

/-! ### Purpose inference (port.js, `inferPurpose`) -/

/-- Embedding of `inferPurpose(componentName)`: a fixed, ordered chain of
case-insensitive substring tests against the component name. -/
def inferPurpose (componentName : String) : String :=
  if ciTest "button" componentName then "action-button"
  else if ciTest "card" componentName then "display-card"
  else if ciTest "list" componentName then "list-container"
  else if ciTest "item" componentName then "list-item"
  else if ciTest "form" componentName then "input-form"
  else if ciTest "input" componentName then "input-field"
  else if ciTest "nav" componentName then "navigation"
  else if ciTest "header" componentName then "page-header"
  else if ciTest "footer" componentName then "page-footer"
  else if ciTest "modal" componentName then "modal-dialog"
  else if ciTest "table" componentName then "data-table"
  else if ciTest "chart" componentName || ciTest "graph" componentName then
    "data-visualization"
  else if ciTest "container" componentName then "layout-container"
  else if ciTest "layout" componentName then "page-layout"
  else if ciTest "sidebar" componentName then "navigation-sidebar"
  else if ciTest "tab" componentName then "navigation-tab"
  else if ciTest "dialog" componentName then "dialog-box"
  else if ciTest "alert" componentName || ciTest "notification" componentName then
    "notification"
  else if ciTest "icon" componentName then "decorative-icon"
  else "ui-component"

/-- The closed set of purpose labels returned by `inferPurpose` (one per
branch of the chain, plus the catch-all). -/
def purposeTaxonomy : List String :=
  ["action-button", "display-card", "list-container", "list-item",
   "input-form", "input-field", "navigation", "page-header", "page-footer",
   "modal-dialog", "data-table", "data-visualization", "layout-container",
   "page-layout", "navigation-sidebar", "navigation-tab", "dialog-box",
   "notification", "decorative-icon", "ui-component"]

/-! ### Babel AST fragment

The fragment of the Babel AST that the port command inspects or mutates.
Statement lists stand for block statements; a `jsxContainer` is a
`JSXExpressionContainer`.  Tags of JSX elements are plain identifiers (the
source always reads `openingElement.name.name`). -/

/-- Binding patterns: a plain identifier, a shorthand object pattern such as
`{ref, aiProps}`, or anything else. -/
inductive Pat where
  | id (name : String)
  | objPat (props : List String)
  | otherPat
deriving DecidableEq, Repr

mutual

inductive Expr where
  | ident (name : String)
  | strLit (s : String)
  | arrLit (elems : List Expr)
  | objLit (fields : List ObjField)
  | call (callee : Expr) (args : List Expr)
  | member (obj : Expr) (prop : String)
  | arrow (params : List Pat) (body : ArrowBody)
  | jsx (el : JSXElem)
  | jsxContainer (e : Expr)
  | otherExpr

inductive ObjField where
  | mk (key : String) (val : Expr)

inductive ArrowBody where
  | block (stmts : List Stmt)
  | expr (e : Expr)

inductive JSXElem where
  | mk (tag : String) (attrs : List JSXAttr) (children : List JSXChild)
       (selfClosing : Bool)

inductive JSXAttr where
  | attr (name : String) (value : Option JSXAttrVal)
  | spread (e : Expr)

inductive JSXAttrVal where
  | lit (s : String)
  | container (e : Expr)

inductive JSXChild where
  | elem (el : JSXElem)
  | exprChild (e : Expr)
  | textChild (s : String)

inductive Stmt where
  | funcDecl (name : String) (params : List Pat) (body : List Stmt)
  | varDecl (kind : String) (decls : List VarDtor)
  | ret (arg : Option Expr)
  | exprStmt (e : Expr)
  | classDecl (name : String) (superClass : Option Expr)
              (methods : List ClassMethod)
  | otherStmt

inductive VarDtor where
  | mk (id : Pat) (init : Option Expr)

inductive ClassMethod where
  | mk (key : String) (body : List Stmt)

end

/-- Projection: the tag of a JSX element. -/
def JSXElem.tag : JSXElem → String
  | .mk t _ _ _ => t

/-- Projection: the attributes of a JSX element. -/
def JSXElem.attrs : JSXElem → List JSXAttr
  | .mk _ a _ _ => a

/-- Projection: the children of a JSX element. -/
def JSXElem.children : JSXElem → List JSXChild
  | .mk _ _ ch _ => ch

/-! ### Component descriptors (port.js, `extractComponent`) -/

/-- The result shape of `simulateAIAnalysis`. -/
structure AIAnalysis where
  enhancedPurpose : String
  relatedComponents : List String
  accessibilityLevel : String
  recommendations : List String
  providerId : String
deriving DecidableEq, Repr

/-- Component descriptor extracted by `extractComponent` /
`extractClassComponent`: only the fields the enhancement strategies read.
`type` is one of the strings "function", "arrow", "class". -/
structure Component where
  name : String
  type : String
  purpose : String
  eventHandlers : List String
  aiSuggestions : Option AIAnalysis := none
deriving DecidableEq, Repr

/-- Embedding of `simulateAIAnalysis(component, providerId)` (deterministic
placeholder analysis; the awaited delay has no observable effect). -/
def simulateAIAnalysis (component : Component) (providerId : String) :
    AIAnalysis :=
  { enhancedPurpose := component.purpose
    relatedComponents := []
    accessibilityLevel := "medium"
    recommendations :=
      if component.purpose == "action-button" then
        ["Ensure button has accessible name", "Add appropriate ARIA role if needed"]
      else if component.purpose == "input-field" then
        ["Associate label with input", "Add clear error messages"]
      else []
    providerId := providerId }

/-! ### Small helpers from port.js -/

/-- Embedding of `isReactClassComponent(path)`: a class declaration whose
superclass is the bare identifier `Component`, or whose superclass is a
member expression with object literally named `React` and property literally
named `Component` (`superClass.object.name === 'React' &&
superClass.property.name === 'Component'`).  On a member expression whose
object is not an identifier, `object.name` is `undefined` in the source and
the comparison fails. -/
def isReactClassComponent : Stmt → Bool
  | .classDecl _ superClass _ =>
    match superClass with
    | none => false
    | some sc =>
      match sc with
      | .member obj prop =>
        (match obj with
         | .ident n => n == "React"
         | _ => false) && prop == "Component"
      | .ident n => n == "Component"
      | _ => false
  | _ => false

/-- Is this a plain attribute named `data-aartisan`? -/
def isMarkerAttr : JSXAttr → Bool
  | .attr n _ => n == "data-aartisan"
  | .spread _ => false

/-- Embedding of `hasAartisanAttributes(openingElement)`: some plain
attribute of the opening element is named `data-aartisan`. -/
def hasAartisanAttributes (attrs : List JSXAttr) : Bool :=
  attrs.any isMarkerAttr

/-- Is this a plain attribute named `ref`? -/
def isRefNamedAttr : JSXAttr → Bool
  | .attr n _ => n == "ref"
  | .spread _ => false

/-- The `attributes.some(attr => t.isJSXAttribute(attr) && attr.name.name
=== 'ref')` test guarding the added `ref` attribute. -/
def hasRefAttr (attrs : List JSXAttr) : Bool :=
  attrs.any isRefNamedAttr

/-- Is this attribute the spread `{...aiProps}`? (Used to count spreads in
the non-idempotence analysis of the hook strategy.) -/
def isAiPropsSpread : JSXAttr → Bool
  | .spread (.ident n) => n == "aiProps"
  | _ => false

/-- The `ref={ref}` attribute built by the hook strategies. -/
def refAttr : JSXAttr :=
  .attr "ref" (some (.container (.ident "ref")))

/-- The `{...aiProps}` spread attribute built by the hook strategies. -/
def aiPropsSpread : JSXAttr :=
  .spread (.ident "aiProps")

/-- Embedding of `enhanceJSXElement(jsx)`: push `ref={ref}` unless a `ref`
attribute is already present, then push `{...aiProps}`. -/
def enhanceJSXElement : JSXElem → JSXElem
  | .mk tag attrs children selfClosing =>
    let attrs1 := if hasRefAttr attrs then attrs else attrs ++ [refAttr]
    .mk tag (attrs1 ++ [aiPropsSpread]) children selfClosing

/-- The three marker attributes pushed by `addBasicDirectives` (and by
`addDirectivesToClassRender`) for a component descriptor. -/
def aartisanMarkers (c : Component) : List JSXAttr :=
  [.attr "data-aartisan" (some (.lit "true")),
   .attr "data-aartisan-purpose" (some (.lit c.purpose)),
   .attr "data-aartisan-component" (some (.lit c.name))]

/-- The three marker attributes pushed by `addBasicDirectivesToAppComponent`
(purpose hard-coded to `application-root`, name hard-coded to `App`). -/
def appMarkers : List JSXAttr :=
  [.attr "data-aartisan" (some (.lit "true")),
   .attr "data-aartisan-purpose" (some (.lit "application-root")),
   .attr "data-aartisan-component" (some (.lit "App"))]

/-- `handler.replace(/^on/, '')`: strip one leading `on`. -/
def stripOnHead (h : String) : String :=
  if strStartsWith h "on" then h.drop 2 else h

/-- The `const { ref, aiProps } = useAIEnhanced(name, { purpose,
interactions })` statement built (twice, identically) by
`addHookToFunction` and `addHookToArrowFunction`.  The `handler &&` part of
the filter is JS truthiness: it only rules out the empty string, which
`startsWith('on')` rules out as well; both tests are kept. -/
def hookCallStmt (c : Component) : Stmt :=
  .varDecl "const"
    [.mk (.objPat ["ref", "aiProps"])
      (some (.call (.ident "useAIEnhanced")
        [.strLit c.name,
         .objLit
           [.mk "purpose" (.strLit c.purpose),
            .mk "interactions"
              (.arrLit
                (((c.eventHandlers.filter fun h =>
                      !h.isEmpty && strStartsWith h "on").map fun h =>
                    strToLower (stripOnHead h)).map Expr.strLit))]]))]

/-! ### Strategy 1: `addBasicDirectives`

The source traverses the whole file, and for every JSX element in root
position (`isRootJSXElement`: the direct argument of a `return`, the direct
expression body of an arrow function, or the element of a JSX expression
container that is itself the direct argument of a `return` — the bounded
parent walk in the source can only succeed in exactly these shapes, because
it compares the return argument by reference with the visited node) it
pushes the three marker attributes unless `hasAartisanAttributes` already
holds.  The source pushes the markers first and then keeps traversing; since
the traversal leaves plain string attributes unchanged, processing the
original attributes and appending the markers afterwards is the same
function.  The `Bool` component is the `modified` flag. -/

mutual

def abdS (c : Component) : Stmt → Stmt × Bool
  | .ret (some (.jsx el)) =>
    let r := abdElemR c el
    (.ret (some (.jsx r.1)), r.2)
  | .ret (some (.jsxContainer (.jsx el))) =>
    let r := abdElemR c el
    (.ret (some (.jsxContainer (.jsx r.1))), r.2)
  | .ret (some e) => let r := abdE c e; (.ret (some r.1), r.2)
  | .ret none => (.ret none, false)
  | .funcDecl n ps body => let r := abdSs c body; (.funcDecl n ps r.1, r.2)
  | .varDecl k ds => let r := abdDs c ds; (.varDecl k r.1, r.2)
  | .exprStmt e => let r := abdE c e; (.exprStmt r.1, r.2)
  | .classDecl n sc ms =>
    let rs := abdOE c sc
    let r := abdMs c ms
    (.classDecl n rs.1 r.1, rs.2 || r.2)
  | .otherStmt => (.otherStmt, false)

def abdSs (c : Component) : List Stmt → List Stmt × Bool
  | [] => ([], false)
  | s :: rest =>
    let r := abdS c s
    let rr := abdSs c rest
    (r.1 :: rr.1, r.2 || rr.2)

def abdE (c : Component) : Expr → Expr × Bool
  | .ident n => (.ident n, false)
  | .strLit s => (.strLit s, false)
  | .arrLit es => let r := abdEs c es; (.arrLit r.1, r.2)
  | .objLit fs => let r := abdFs c fs; (.objLit r.1, r.2)
  | .call f as =>
    let rf := abdE c f
    let ra := abdEs c as
    (.call rf.1 ra.1, rf.2 || ra.2)
  | .member o p => let r := abdE c o; (.member r.1 p, r.2)
  | .arrow ps (.expr (.jsx el)) =>
    let r := abdElemR c el
    (.arrow ps (.expr (.jsx r.1)), r.2)
  | .arrow ps (.expr e) => let r := abdE c e; (.arrow ps (.expr r.1), r.2)
  | .arrow ps (.block ss) => let r := abdSs c ss; (.arrow ps (.block r.1), r.2)
  | .jsx el => let r := abdElemN c el; (.jsx r.1, r.2)
  | .jsxContainer e => let r := abdE c e; (.jsxContainer r.1, r.2)
  | .otherExpr => (.otherExpr, false)

def abdEs (c : Component) : List Expr → List Expr × Bool
  | [] => ([], false)
  | e :: rest =>
    let r := abdE c e
    let rr := abdEs c rest
    (r.1 :: rr.1, r.2 || rr.2)

def abdOE (c : Component) : Option Expr → Option Expr × Bool
  | none => (none, false)
  | some e => let r := abdE c e; (some r.1, r.2)

def abdElemR (c : Component) : JSXElem → JSXElem × Bool
  | .mk tag attrs children selfClosing =>
    let ra := abdAs c attrs
    let rc := abdChs c children
    if hasAartisanAttributes attrs then
      (.mk tag ra.1 rc.1 selfClosing, ra.2 || rc.2)
    else
      (.mk tag (ra.1 ++ aartisanMarkers c) rc.1 selfClosing, true)

def abdElemN (c : Component) : JSXElem → JSXElem × Bool
  | .mk tag attrs children selfClosing =>
    let ra := abdAs c attrs
    let rc := abdChs c children
    (.mk tag ra.1 rc.1 selfClosing, ra.2 || rc.2)

def abdA (c : Component) : JSXAttr → JSXAttr × Bool
  | .attr n (some (.container e)) =>
    let r := abdE c e
    (.attr n (some (.container r.1)), r.2)
  | .attr n v => (.attr n v, false)
  | .spread e => let r := abdE c e; (.spread r.1, r.2)

def abdAs (c : Component) : List JSXAttr → List JSXAttr × Bool
  | [] => ([], false)
  | a :: rest =>
    let r := abdA c a
    let rr := abdAs c rest
    (r.1 :: rr.1, r.2 || rr.2)

def abdCh (c : Component) : JSXChild → JSXChild × Bool
  | .elem el => let r := abdElemN c el; (.elem r.1, r.2)
  | .exprChild e => let r := abdE c e; (.exprChild r.1, r.2)
  | .textChild s => (.textChild s, false)

def abdChs (c : Component) : List JSXChild → List JSXChild × Bool
  | [] => ([], false)
  | ch :: rest =>
    let r := abdCh c ch
    let rr := abdChs c rest
    (r.1 :: rr.1, r.2 || rr.2)

def abdD (c : Component) : VarDtor → VarDtor × Bool
  | .mk pat init => let r := abdOE c init; (.mk pat r.1, r.2)

def abdDs (c : Component) : List VarDtor → List VarDtor × Bool
  | [] => ([], false)
  | d :: rest =>
    let r := abdD c d
    let rr := abdDs c rest
    (r.1 :: rr.1, r.2 || rr.2)

def abdF (c : Component) : ObjField → ObjField × Bool
  | .mk k v => let r := abdE c v; (.mk k r.1, r.2)

def abdFs (c : Component) : List ObjField → List ObjField × Bool
  | [] => ([], false)
  | f :: rest =>
    let r := abdF c f
    let rr := abdFs c rest
    (r.1 :: rr.1, r.2 || rr.2)

def abdM (c : Component) : ClassMethod → ClassMethod × Bool
  | .mk k b => let r := abdSs c b; (.mk k r.1, r.2)

def abdMs (c : Component) : List ClassMethod → List ClassMethod × Bool
  | [] => ([], false)
  | m :: rest =>
    let r := abdM c m
    let rr := abdMs c rest
    (r.1 :: rr.1, r.2 || rr.2)

end

/-- The action of `abdE` on an arrow-function body, split out so that the
arrow case of the traversal can be stated as a single equation. -/
def abdArrowBody (c : Component) : ArrowBody → ArrowBody × Bool
  | .expr (.jsx el) => let r := abdElemR c el; (.expr (.jsx r.1), r.2)
  | .expr e => let r := abdE c e; (.expr r.1, r.2)
  | .block ss => let r := abdSs c ss; (.block r.1, r.2)

/-- Embedding of `addBasicDirectives(code, component)`: traverse, mark every
root JSX element that is not already marked, and return the regenerated code
exactly when the `modified` flag was set — otherwise the original code. -/
def addBasicDirectives (code : List Stmt) (component : Component) :
    List Stmt :=
  let r := abdSs component code
  if r.2 then r.1 else code

/-! ### App special case: `addBasicDirectivesToAppComponent`

The source traverses every `ReturnStatement` of the file; when the return
argument is directly a JSX element it pushes the three hard-coded marker
attributes unless the element is already marked.  There is no root check and
no first-match cutoff, and JSX expression containers are not unwrapped.  As
before, pushing the markers before the traversal continues equals processing
the original attributes and appending the (traversal-invariant) markers. -/

mutual

def abdAppS : Stmt → Stmt × Bool
  | .ret (some (.jsx el)) =>
    let r := abdAppElemRet el
    (.ret (some (.jsx r.1)), r.2)
  | .ret (some e) => let r := abdAppE e; (.ret (some r.1), r.2)
  | .ret none => (.ret none, false)
  | .funcDecl n ps body => let r := abdAppSs body; (.funcDecl n ps r.1, r.2)
  | .varDecl k ds => let r := abdAppDs ds; (.varDecl k r.1, r.2)
  | .exprStmt e => let r := abdAppE e; (.exprStmt r.1, r.2)
  | .classDecl n sc ms =>
    let rs := abdAppOE sc
    let r := abdAppMs ms
    (.classDecl n rs.1 r.1, rs.2 || r.2)
  | .otherStmt => (.otherStmt, false)

def abdAppSs : List Stmt → List Stmt × Bool
  | [] => ([], false)
  | s :: rest =>
    let r := abdAppS s
    let rr := abdAppSs rest
    (r.1 :: rr.1, r.2 || rr.2)

def abdAppE : Expr → Expr × Bool
  | .ident n => (.ident n, false)
  | .strLit s => (.strLit s, false)
  | .arrLit es => let r := abdAppEs es; (.arrLit r.1, r.2)
  | .objLit fs => let r := abdAppFs fs; (.objLit r.1, r.2)
  | .call f as =>
    let rf := abdAppE f
    let ra := abdAppEs as
    (.call rf.1 ra.1, rf.2 || ra.2)
  | .member o p => let r := abdAppE o; (.member r.1 p, r.2)
  | .arrow ps (.expr e) => let r := abdAppE e; (.arrow ps (.expr r.1), r.2)
  | .arrow ps (.block ss) =>
    let r := abdAppSs ss
    (.arrow ps (.block r.1), r.2)
  | .jsx el => let r := abdAppElemN el; (.jsx r.1, r.2)
  | .jsxContainer e => let r := abdAppE e; (.jsxContainer r.1, r.2)
  | .otherExpr => (.otherExpr, false)

def abdAppEs : List Expr → List Expr × Bool
  | [] => ([], false)
  | e :: rest =>
    let r := abdAppE e
    let rr := abdAppEs rest
    (r.1 :: rr.1, r.2 || rr.2)

def abdAppOE : Option Expr → Option Expr × Bool
  | none => (none, false)
  | some e => let r := abdAppE e; (some r.1, r.2)

def abdAppElemRet : JSXElem → JSXElem × Bool
  | .mk tag attrs children selfClosing =>
    let ra := abdAppAs attrs
    let rc := abdAppChs children
    if hasAartisanAttributes attrs then
      (.mk tag ra.1 rc.1 selfClosing, ra.2 || rc.2)
    else
      (.mk tag (ra.1 ++ appMarkers) rc.1 selfClosing, true)

def abdAppElemN : JSXElem → JSXElem × Bool
  | .mk tag attrs children selfClosing =>
    let ra := abdAppAs attrs
    let rc := abdAppChs children
    (.mk tag ra.1 rc.1 selfClosing, ra.2 || rc.2)

def abdAppA : JSXAttr → JSXAttr × Bool
  | .attr n (some (.container e)) =>
    let r := abdAppE e
    (.attr n (some (.container r.1)), r.2)
  | .attr n v => (.attr n v, false)
  | .spread e => let r := abdAppE e; (.spread r.1, r.2)

def abdAppAs : List JSXAttr → List JSXAttr × Bool
  | [] => ([], false)
  | a :: rest =>
    let r := abdAppA a
    let rr := abdAppAs rest
    (r.1 :: rr.1, r.2 || rr.2)

def abdAppCh : JSXChild → JSXChild × Bool
  | .elem el => let r := abdAppElemN el; (.elem r.1, r.2)
  | .exprChild e => let r := abdAppE e; (.exprChild r.1, r.2)
  | .textChild s => (.textChild s, false)

def abdAppChs : List JSXChild → List JSXChild × Bool
  | [] => ([], false)
  | ch :: rest =>
    let r := abdAppCh ch
    let rr := abdAppChs rest
    (r.1 :: rr.1, r.2 || rr.2)

def abdAppD : VarDtor → VarDtor × Bool
  | .mk pat init => let r := abdAppOE init; (.mk pat r.1, r.2)

def abdAppDs : List VarDtor → List VarDtor × Bool
  | [] => ([], false)
  | d :: rest =>
    let r := abdAppD d
    let rr := abdAppDs rest
    (r.1 :: rr.1, r.2 || rr.2)

def abdAppF : ObjField → ObjField × Bool
  | .mk k v => let r := abdAppE v; (.mk k r.1, r.2)

def abdAppFs : List ObjField → List ObjField × Bool
  | [] => ([], false)
  | f :: rest =>
    let r := abdAppF f
    let rr := abdAppFs rest
    (r.1 :: rr.1, r.2 || rr.2)

def abdAppM : ClassMethod → ClassMethod × Bool
  | .mk k b => let r := abdAppSs b; (.mk k r.1, r.2)

def abdAppMs : List ClassMethod → List ClassMethod × Bool
  | [] => ([], false)
  | m :: rest =>
    let r := abdAppM m
    let rr := abdAppMs rest
    (r.1 :: rr.1, r.2 || rr.2)

end

/-- Embedding of `addBasicDirectivesToAppComponent(code, component)`: the
hard-coded three-attribute splice on every directly returned JSX element;
returns the original code when nothing was modified.  The component
descriptor is not consulted (all values are hard-coded in the source). -/
def addBasicDirectivesToAppComponent (code : List Stmt) (_component : Component) :
    List Stmt :=
  let r := abdAppSs code
  if r.2 then r.1 else code

/-! ### First-JSX-return splice (`addHookToFunction` inner traversal)

`addHookToFunction` and `addHookToArrowFunction` unshift the hook statement
and then traverse `ReturnStatement`s, enhancing the first one whose argument
is a JSX element (or a JSX expression container holding one) with
`ref`/`{...aiProps}` and stopping (`returnFound`).  The traversal descends
into every construct in source order, so a return nested inside an arrow or
function expression can be the first match.  The `Bool` is `returnFound`;
once it is set the remaining nodes are returned untouched. -/

mutual

def sfrS : Stmt → Stmt × Bool
  | .ret (some (.jsx el)) =>
    (.ret (some (.jsx (enhanceJSXElement el))), true)
  | .ret (some (.jsxContainer (.jsx el))) =>
    (.ret (some (.jsxContainer (.jsx (enhanceJSXElement el)))), true)
  | .ret (some e) => let r := sfrE e; (.ret (some r.1), r.2)
  | .ret none => (.ret none, false)
  | .funcDecl n ps body => let r := sfrSs body; (.funcDecl n ps r.1, r.2)
  | .varDecl k ds => let r := sfrDs ds; (.varDecl k r.1, r.2)
  | .exprStmt e => let r := sfrE e; (.exprStmt r.1, r.2)
  | .classDecl n sc ms =>
    let rs := sfrOE sc
    if rs.2 then (.classDecl n rs.1 ms, true)
    else
      let r := sfrMs ms
      (.classDecl n rs.1 r.1, r.2)
  | .otherStmt => (.otherStmt, false)

def sfrSs : List Stmt → List Stmt × Bool
  | [] => ([], false)
  | s :: rest =>
    let r := sfrS s
    if r.2 then (r.1 :: rest, true)
    else
      let rr := sfrSs rest
      (r.1 :: rr.1, rr.2)

def sfrE : Expr → Expr × Bool
  | .ident n => (.ident n, false)
  | .strLit s => (.strLit s, false)
  | .arrLit es => let r := sfrEs es; (.arrLit r.1, r.2)
  | .objLit fs => let r := sfrFs fs; (.objLit r.1, r.2)
  | .call f as =>
    let rf := sfrE f
    if rf.2 then (.call rf.1 as, true)
    else
      let ra := sfrEs as
      (.call rf.1 ra.1, ra.2)
  | .member o p => let r := sfrE o; (.member r.1 p, r.2)
  | .arrow ps (.expr e) => let r := sfrE e; (.arrow ps (.expr r.1), r.2)
  | .arrow ps (.block ss) => let r := sfrSs ss; (.arrow ps (.block r.1), r.2)
  | .jsx el => let r := sfrElem el; (.jsx r.1, r.2)
  | .jsxContainer e => let r := sfrE e; (.jsxContainer r.1, r.2)
  | .otherExpr => (.otherExpr, false)

def sfrEs : List Expr → List Expr × Bool
  | [] => ([], false)
  | e :: rest =>
    let r := sfrE e
    if r.2 then (r.1 :: rest, true)
    else
      let rr := sfrEs rest
      (r.1 :: rr.1, rr.2)

def sfrOE : Option Expr → Option Expr × Bool
  | none => (none, false)
  | some e => let r := sfrE e; (some r.1, r.2)

def sfrElem : JSXElem → JSXElem × Bool
  | .mk tag attrs children selfClosing =>
    let ra := sfrAs attrs
    if ra.2 then (.mk tag ra.1 children selfClosing, true)
    else
      let rc := sfrChs children
      (.mk tag ra.1 rc.1 selfClosing, rc.2)

def sfrA : JSXAttr → JSXAttr × Bool
  | .attr n (some (.container e)) =>
    let r := sfrE e
    (.attr n (some (.container r.1)), r.2)
  | .attr n v => (.attr n v, false)
  | .spread e => let r := sfrE e; (.spread r.1, r.2)

def sfrAs : List JSXAttr → List JSXAttr × Bool
  | [] => ([], false)
  | a :: rest =>
    let r := sfrA a
    if r.2 then (r.1 :: rest, true)
    else
      let rr := sfrAs rest
      (r.1 :: rr.1, rr.2)

def sfrCh : JSXChild → JSXChild × Bool
  | .elem el => let r := sfrElem el; (.elem r.1, r.2)
  | .exprChild e => let r := sfrE e; (.exprChild r.1, r.2)
  | .textChild s => (.textChild s, false)

def sfrChs : List JSXChild → List JSXChild × Bool
  | [] => ([], false)
  | ch :: rest =>
    let r := sfrCh ch
    if r.2 then (r.1 :: rest, true)
    else
      let rr := sfrChs rest
      (r.1 :: rr.1, rr.2)

def sfrD : VarDtor → VarDtor × Bool
  | .mk pat init => let r := sfrOE init; (.mk pat r.1, r.2)

def sfrDs : List VarDtor → List VarDtor × Bool
  | [] => ([], false)
  | d :: rest =>
    let r := sfrD d
    if r.2 then (r.1 :: rest, true)
    else
      let rr := sfrDs rest
      (r.1 :: rr.1, rr.2)

def sfrF : ObjField → ObjField × Bool
  | .mk k v => let r := sfrE v; (.mk k r.1, r.2)

def sfrFs : List ObjField → List ObjField × Bool
  | [] => ([], false)
  | f :: rest =>
    let r := sfrF f
    if r.2 then (r.1 :: rest, true)
    else
      let rr := sfrFs rest
      (r.1 :: rr.1, rr.2)

def sfrM : ClassMethod → ClassMethod × Bool
  | .mk k b => let r := sfrSs b; (.mk k r.1, r.2)

def sfrMs : List ClassMethod → List ClassMethod × Bool
  | [] => ([], false)
  | m :: rest =>
    let r := sfrM m
    if r.2 then (r.1 :: rest, true)
    else
      let rr := sfrMs rest
      (r.1 :: rr.1, rr.2)

end

/-- Embedding of `addHookToFunction(path, component)` restricted to the
function body: unshift the hook-call statement, then splice `ref` and
`{...aiProps}` onto the first JSX-returning return statement.  The returned
flag is the source's `modified` (the splice happened); the unshift itself
happens unconditionally, exactly as in the source. -/
def addHookToFunctionBody (c : Component) (body : List Stmt) :
    List Stmt × Bool :=
  sfrSs (hookCallStmt c :: body)

/-- Embedding of the body manipulation of `addHookToArrowFunction(path,
component)`: for a block body, same as the function case; for a bare JSX
element body, enhance the element and replace the body by a block holding
the hook call and an explicit return of that element; anything else is left
alone with `modified = false`. -/
def addHookToArrowBody (c : Component) : ArrowBody → ArrowBody × Bool
  | .block ss => let r := sfrSs (hookCallStmt c :: ss); (.block r.1, r.2)
  | .expr (.jsx el) =>
    (.block [hookCallStmt c, .ret (some (.jsx (enhanceJSXElement el)))], true)
  | b => (b, false)

/-! ### Strategy 2: `addAIEnhancedHook`

The source traverses the file for `FunctionDeclaration`s and
`VariableDeclarator`s whose name equals `component.name` and applies
`addHookToFunction` / `addHookToArrowFunction` there; `modified` is the OR
of their results.  Babel applies a visitor before walking into the (already
mutated) subtree; the model walks into the subtree first and then applies
the hook, which keeps the recursion structural and produces the same tree
whenever no declaration named `component.name` is nested inside another one
— the situation the theorems below hypothesize (and the hook statement the
mutation inserts binds an object pattern, which never matches the
`path.node.id.name` test). -/

mutual

def ahS (c : Component) : Stmt → Stmt × Bool
  | .funcDecl n ps body =>
    let rb := ahSs c body
    if n == c.name then
      let rh := addHookToFunctionBody c rb.1
      (.funcDecl n ps rh.1, rb.2 || rh.2)
    else (.funcDecl n ps rb.1, rb.2)
  | .varDecl k ds => let r := ahDs c ds; (.varDecl k r.1, r.2)
  | .ret arg => let r := ahOE c arg; (.ret r.1, r.2)
  | .exprStmt e => let r := ahE c e; (.exprStmt r.1, r.2)
  | .classDecl n sc ms =>
    let rs := ahOE c sc
    let r := ahMs c ms
    (.classDecl n rs.1 r.1, rs.2 || r.2)
  | .otherStmt => (.otherStmt, false)

def ahSs (c : Component) : List Stmt → List Stmt × Bool
  | [] => ([], false)
  | s :: rest =>
    let r := ahS c s
    let rr := ahSs c rest
    (r.1 :: rr.1, r.2 || rr.2)

def ahE (c : Component) : Expr → Expr × Bool
  | .ident n => (.ident n, false)
  | .strLit s => (.strLit s, false)
  | .arrLit es => let r := ahEs c es; (.arrLit r.1, r.2)
  | .objLit fs => let r := ahFs c fs; (.objLit r.1, r.2)
  | .call f as =>
    let rf := ahE c f
    let ra := ahEs c as
    (.call rf.1 ra.1, rf.2 || ra.2)
  | .member o p => let r := ahE c o; (.member r.1 p, r.2)
  | .arrow ps b => let r := ahAB c b; (.arrow ps r.1, r.2)
  | .jsx el => let r := ahElem c el; (.jsx r.1, r.2)
  | .jsxContainer e => let r := ahE c e; (.jsxContainer r.1, r.2)
  | .otherExpr => (.otherExpr, false)

def ahEs (c : Component) : List Expr → List Expr × Bool
  | [] => ([], false)
  | e :: rest =>
    let r := ahE c e
    let rr := ahEs c rest
    (r.1 :: rr.1, r.2 || rr.2)

def ahOE (c : Component) : Option Expr → Option Expr × Bool
  | none => (none, false)
  | some e => let r := ahE c e; (some r.1, r.2)

def ahAB (c : Component) : ArrowBody → ArrowBody × Bool
  | .block ss => let r := ahSs c ss; (.block r.1, r.2)
  | .expr e => let r := ahE c e; (.expr r.1, r.2)

def ahElem (c : Component) : JSXElem → JSXElem × Bool
  | .mk tag attrs children selfClosing =>
    let ra := ahAs c attrs
    let rc := ahChs c children
    (.mk tag ra.1 rc.1 selfClosing, ra.2 || rc.2)

def ahA (c : Component) : JSXAttr → JSXAttr × Bool
  | .attr n (some (.container e)) =>
    let r := ahE c e
    (.attr n (some (.container r.1)), r.2)
  | .attr n v => (.attr n v, false)
  | .spread e => let r := ahE c e; (.spread r.1, r.2)

def ahAs (c : Component) : List JSXAttr → List JSXAttr × Bool
  | [] => ([], false)
  | a :: rest =>
    let r := ahA c a
    let rr := ahAs c rest
    (r.1 :: rr.1, r.2 || rr.2)

def ahCh (c : Component) : JSXChild → JSXChild × Bool
  | .elem el => let r := ahElem c el; (.elem r.1, r.2)
  | .exprChild e => let r := ahE c e; (.exprChild r.1, r.2)
  | .textChild s => (.textChild s, false)

def ahChs (c : Component) : List JSXChild → List JSXChild × Bool
  | [] => ([], false)
  | ch :: rest =>
    let r := ahCh c ch
    let rr := ahChs c rest
    (r.1 :: rr.1, r.2 || rr.2)

def ahD (c : Component) : VarDtor → VarDtor × Bool
  | .mk (.id n) (some (.arrow ps b)) =>
    let rb := ahAB c b
    if n == c.name then
      let rh := addHookToArrowBody c rb.1
      (.mk (.id n) (some (.arrow ps rh.1)), rb.2 || rh.2)
    else (.mk (.id n) (some (.arrow ps rb.1)), rb.2)
  | .mk pat init => let r := ahOE c init; (.mk pat r.1, r.2)

def ahDs (c : Component) : List VarDtor → List VarDtor × Bool
  | [] => ([], false)
  | d :: rest =>
    let r := ahD c d
    let rr := ahDs c rest
    (r.1 :: rr.1, r.2 || rr.2)

def ahF (c : Component) : ObjField → ObjField × Bool
  | .mk k v => let r := ahE c v; (.mk k r.1, r.2)

def ahFs (c : Component) : List ObjField → List ObjField × Bool
  | [] => ([], false)
  | f :: rest =>
    let r := ahF c f
    let rr := ahFs c rest
    (r.1 :: rr.1, r.2 || rr.2)

def ahM (c : Component) : ClassMethod → ClassMethod × Bool
  | .mk k b => let r := ahSs c b; (.mk k r.1, r.2)

def ahMs (c : Component) : List ClassMethod → List ClassMethod × Bool
  | [] => ([], false)
  | m :: rest =>
    let r := ahM c m
    let rr := ahMs c rest
    (r.1 :: rr.1, r.2 || rr.2)

end

/-- Embedding of `addAIEnhancedHook(code, component)`: run the hook
traversal; if nothing was modified fall back to `addBasicDirectives` on the
original code, exactly as the source does. -/
def addAIEnhancedHook (code : List Stmt) (component : Component) :
    List Stmt :=
  let r := ahSs component code
  if r.2 then r.1 else addBasicDirectives code component

/-- Embedding of `convertToDefineComponent(code, component)`: the structural
rewrite is not implemented; the source immediately falls back to the hook
approach (and also on parse failure). -/
def convertToDefineComponent (code : List Stmt) (component : Component) :
    List Stmt :=
  addAIEnhancedHook code component

/-- Embedding of `enhanceFunctionComponent(code, component, level)`: the
`App` special case first, then the string-keyed level dispatch with
`standard` as the default branch. -/
def enhanceFunctionComponent (code : List Stmt) (component : Component)
    (level : String) : List Stmt :=
  if component.name == "App" then
    addBasicDirectivesToAppComponent code component
  else if level == "basic" then addBasicDirectives code component
  else if level == "advanced" then convertToDefineComponent code component
  else addAIEnhancedHook code component

/-! ### Class components: `addDirectivesToClassRender`

The source finds every `ClassMethod` named `render` (anywhere in the file)
and runs, inside it, the same root-element/marker splice as
`addBasicDirectives`; the inner action is therefore the `abd` traversal
applied to the method body.  As with the hook traversal, the model descends
first and applies the splice afterwards. -/

mutual

def dcrS (c : Component) : Stmt → Stmt × Bool
  | .funcDecl n ps body => let r := dcrSs c body; (.funcDecl n ps r.1, r.2)
  | .varDecl k ds => let r := dcrDs c ds; (.varDecl k r.1, r.2)
  | .ret arg => let r := dcrOE c arg; (.ret r.1, r.2)
  | .exprStmt e => let r := dcrE c e; (.exprStmt r.1, r.2)
  | .classDecl n sc ms =>
    let rs := dcrOE c sc
    let r := dcrMs c ms
    (.classDecl n rs.1 r.1, rs.2 || r.2)
  | .otherStmt => (.otherStmt, false)

def dcrSs (c : Component) : List Stmt → List Stmt × Bool
  | [] => ([], false)
  | s :: rest =>
    let r := dcrS c s
    let rr := dcrSs c rest
    (r.1 :: rr.1, r.2 || rr.2)

def dcrE (c : Component) : Expr → Expr × Bool
  | .ident n => (.ident n, false)
  | .strLit s => (.strLit s, false)
  | .arrLit es => let r := dcrEs c es; (.arrLit r.1, r.2)
  | .objLit fs => let r := dcrFs c fs; (.objLit r.1, r.2)
  | .call f as =>
    let rf := dcrE c f
    let ra := dcrEs c as
    (.call rf.1 ra.1, rf.2 || ra.2)
  | .member o p => let r := dcrE c o; (.member r.1 p, r.2)
  | .arrow ps (.block ss) => let r := dcrSs c ss; (.arrow ps (.block r.1), r.2)
  | .arrow ps (.expr e) => let r := dcrE c e; (.arrow ps (.expr r.1), r.2)
  | .jsx el => let r := dcrElem c el; (.jsx r.1, r.2)
  | .jsxContainer e => let r := dcrE c e; (.jsxContainer r.1, r.2)
  | .otherExpr => (.otherExpr, false)

def dcrEs (c : Component) : List Expr → List Expr × Bool
  | [] => ([], false)
  | e :: rest =>
    let r := dcrE c e
    let rr := dcrEs c rest
    (r.1 :: rr.1, r.2 || rr.2)

def dcrOE (c : Component) : Option Expr → Option Expr × Bool
  | none => (none, false)
  | some e => let r := dcrE c e; (some r.1, r.2)

def dcrElem (c : Component) : JSXElem → JSXElem × Bool
  | .mk tag attrs children selfClosing =>
    let ra := dcrAs c attrs
    let rc := dcrChs c children
    (.mk tag ra.1 rc.1 selfClosing, ra.2 || rc.2)

def dcrA (c : Component) : JSXAttr → JSXAttr × Bool
  | .attr n (some (.container e)) =>
    let r := dcrE c e
    (.attr n (some (.container r.1)), r.2)
  | .attr n v => (.attr n v, false)
  | .spread e => let r := dcrE c e; (.spread r.1, r.2)

def dcrAs (c : Component) : List JSXAttr → List JSXAttr × Bool
  | [] => ([], false)
  | a :: rest =>
    let r := dcrA c a
    let rr := dcrAs c rest
    (r.1 :: rr.1, r.2 || rr.2)

def dcrCh (c : Component) : JSXChild → JSXChild × Bool
  | .elem el => let r := dcrElem c el; (.elem r.1, r.2)
  | .exprChild e => let r := dcrE c e; (.exprChild r.1, r.2)
  | .textChild s => (.textChild s, false)

def dcrChs (c : Component) : List JSXChild → List JSXChild × Bool
  | [] => ([], false)
  | ch :: rest =>
    let r := dcrCh c ch
    let rr := dcrChs c rest
    (r.1 :: rr.1, r.2 || rr.2)

def dcrD (c : Component) : VarDtor → VarDtor × Bool
  | .mk pat init => let r := dcrOE c init; (.mk pat r.1, r.2)

def dcrDs (c : Component) : List VarDtor → List VarDtor × Bool
  | [] => ([], false)
  | d :: rest =>
    let r := dcrD c d
    let rr := dcrDs c rest
    (r.1 :: rr.1, r.2 || rr.2)

def dcrF (c : Component) : ObjField → ObjField × Bool
  | .mk k v => let r := dcrE c v; (.mk k r.1, r.2)

def dcrFs (c : Component) : List ObjField → List ObjField × Bool
  | [] => ([], false)
  | f :: rest =>
    let r := dcrF c f
    let rr := dcrFs c rest
    (r.1 :: rr.1, r.2 || rr.2)

def dcrM (c : Component) : ClassMethod → ClassMethod × Bool
  | .mk k b =>
    let rb := dcrSs c b
    if k == "render" then
      let ra := abdSs c rb.1
      (.mk k ra.1, rb.2 || ra.2)
    else (.mk k rb.1, rb.2)

def dcrMs (c : Component) : List ClassMethod → List ClassMethod × Bool
  | [] => ([], false)
  | m :: rest =>
    let r := dcrM c m
    let rr := dcrMs c rest
    (r.1 :: rr.1, r.2 || rr.2)

end

/-- Embedding of `addDirectivesToClassRender(code, component)`. -/
def addDirectivesToClassRender (code : List Stmt) (component : Component) :
    List Stmt :=
  let r := dcrSs component code
  if r.2 then r.1 else code

/-- Embedding of `wrapWithAIEnhancementHOC(code, component)`: the HOC
transformation is not implemented; the source uses the directives
approach. -/
def wrapWithAIEnhancementHOC (code : List Stmt) (component : Component) :
    List Stmt :=
  addDirectivesToClassRender code component

/-- Embedding of `enhanceClassComponent(code, component, level)`. -/
def enhanceClassComponent (code : List Stmt) (component : Component)
    (level : String) : List Stmt :=
  if level == "advanced" then wrapWithAIEnhancementHOC code component
  else addDirectivesToClassRender code component

/-! ### The per-component loop of `transformComponents`

Inside the transform phase, for each component of a file: when AI is in use,
the (awaited, fallible) analysis call is run inside its own try/catch — on
success its result is stored on the descriptor, on failure only a warning is
printed; then the enhancement dispatch runs on the descriptor.  The fallible
call is modelled as a `Component → Except String AIAnalysis` parameter. -/

/-- One iteration of the component loop in `transformComponents`. -/
def enhanceOneComponent (useAI : Bool)
    (aiCall : Component → Except String AIAnalysis) (code : List Stmt)
    (component : Component) (level : String) : List Stmt :=
  let c2 :=
    if useAI then
      match aiCall component with
      | .ok a => { component with aiSuggestions := some a }
      | .error _ => component
    else component
  if c2.type == "function" || c2.type == "arrow" then
    enhanceFunctionComponent code c2 level
  else if c2.type == "class" then enhanceClassComponent code c2 level
  else code

/-- The component loop of `transformComponents` over one file's descriptor
list, threading the current content. -/
def enhanceLoop (useAI : Bool)
    (aiCall : Component → Except String AIAnalysis) (level : String) :
    List Component → List Stmt → List Stmt
  | [], code => code
  | c :: rest, code =>
    enhanceLoop useAI aiCall level rest
      (enhanceOneComponent useAI aiCall code c level)

/-! ### Render-root wrapping (`integrateAartisanProvider`)

The phase reads the entry file and tries four render-call shapes in order,
each one a full `CallExpression` traversal guarded by `rootElementFound`:
once an argument is wrapped, every later visit returns immediately.  A
traversal is modelled generically: a handler inspects a call's callee and
arguments and returns the new argument list when its pattern fires and the
wrap was performed.  A pattern match whose argument is already wrapped does
nothing and does not set the flag, exactly as in the source. -/

/-- Embedding of `isWrappedWithAartisanProvider(node)`. -/
def isWrappedWithAartisanProvider : Expr → Bool
  | .jsx (.mk tag _ _ _) => tag == "AartisanProvider"
  | .jsxContainer (.jsx el) => isWrappedWithAartisanProvider (.jsx el)
  | _ => false

/-- The `config={{appName, appPurpose}}` object built by
`wrapWithAartisanProvider`; `appName` stands for
`context.projectInfo.packageJson.name || 'Aartisan App'`. -/
def providerConfig (appName : String) : Expr :=
  .objLit [.mk "appName" (.strLit appName),
           .mk "appPurpose" (.strLit "web-application")]

/-- The `config` attribute of the synthesized provider element. -/
def providerConfigAttr (appName : String) : JSXAttr :=
  .attr "config" (some (.container (providerConfig appName)))

/-- Embedding of `wrapWithAartisanProvider(node, context)`: wrap a JSX
element directly; unwrap one JSX expression container around an element;
synthesize a self-closing element for a bare identifier; return anything
else unchanged. -/
def wrapWithAartisanProvider (appName : String) : Expr → Expr
  | .jsx el =>
    .jsx (.mk "AartisanProvider" [providerConfigAttr appName] [.elem el] false)
  | .jsxContainer (.jsx el) =>
    .jsxContainer (wrapWithAartisanProvider appName (.jsx el))
  | .ident n =>
    .jsx (.mk "AartisanProvider" [providerConfigAttr appName]
      [.elem (.mk n [] [] true)] false)
  | e => e

/-- A pattern handler: given the callee and arguments of a visited
`CallExpression`, return the replaced argument list if the pattern fired and
performed a wrap. -/
def CallHandler : Type := Expr → List Expr → Option (List Expr)

/-- Shared guard-and-wrap step on the first argument (`arguments[0]`). -/
def wrapFirstArg (appName : String) (args : List Expr) :
    Option (List Expr) :=
  match args with
  | [] => none
  | a :: rest =>
    if isWrappedWithAartisanProvider a then none
    else some (wrapWithAartisanProvider appName a :: rest)

/-- Pattern 1: `createRoot(...).render(arg)` (callee is a `render` member
access on a call whose own callee is `createRoot` or `*.createRoot`). -/
def pattern1Handle (appName : String) : CallHandler :=
  fun callee args =>
    match callee with
    | .member (.call chainCallee _) "render" =>
      match chainCallee with
      | .ident n => if n == "createRoot" then wrapFirstArg appName args else none
      | .member _ p => if p == "createRoot" then wrapFirstArg appName args else none
      | _ => none
    | _ => none

/-- Pattern 2: `ReactDOM.render(arg, container, ...)` with at least two
arguments. -/
def pattern2Handle (appName : String) : CallHandler :=
  fun callee args =>
    match callee with
    | .member (.ident obj) "render" =>
      if obj == "ReactDOM" then
        match args with
        | a :: b :: rest =>
          if isWrappedWithAartisanProvider a then none
          else some (wrapWithAartisanProvider appName a :: b :: rest)
        | _ => none
      else none
    | _ => none

/-- Pattern 3: bare `render(arg, ...)` with at least one argument. -/
def pattern3Handle (appName : String) : CallHandler :=
  fun callee args =>
    match callee with
    | .ident n => if n == "render" then wrapFirstArg appName args else none
    | _ => none

/-- Pattern 4: hydration-style calls; with two or more arguments the JSX is
expected in the second position, with exactly one in the first, and in both
cases the argument must literally be a JSX element. -/
def pattern4Handle (appName : String) : CallHandler :=
  fun callee args =>
    let nameMatches :=
      match callee with
      | .ident n => ["hydrateRoot", "hydrate", "renderToDOM"].contains n
      | .member _ p => ["hydrateRoot", "hydrate"].contains p
      | _ => false
    if nameMatches then
      match args with
      | a :: b :: rest =>
        match b with
        | .jsx el =>
          if isWrappedWithAartisanProvider (.jsx el) then none
          else some (a :: wrapWithAartisanProvider appName (.jsx el) :: rest)
        | _ => none
      | [a] =>
        match a with
        | .jsx el =>
          if isWrappedWithAartisanProvider (.jsx el) then none
          else some [wrapWithAartisanProvider appName (.jsx el)]
        | _ => none
      | [] => none
    else none

mutual

def wtS (h : CallHandler) : Bool → Stmt → Stmt × Bool
  | true, s => (s, true)
  | false, .funcDecl n ps body =>
    let r := wtSs h false body
    (.funcDecl n ps r.1, r.2)
  | false, .varDecl k ds => let r := wtDs h false ds; (.varDecl k r.1, r.2)
  | false, .ret arg => let r := wtOE h false arg; (.ret r.1, r.2)
  | false, .exprStmt e => let r := wtE h false e; (.exprStmt r.1, r.2)
  | false, .classDecl n sc ms =>
    let rs := wtOE h false sc
    let r := wtMs h rs.2 ms
    (.classDecl n rs.1 r.1, r.2)
  | false, .otherStmt => (.otherStmt, false)

def wtSs (h : CallHandler) : Bool → List Stmt → List Stmt × Bool
  | f, [] => ([], f)
  | f, s :: rest =>
    let r := wtS h f s
    let rr := wtSs h r.2 rest
    (r.1 :: rr.1, rr.2)

def wtE (h : CallHandler) : Bool → Expr → Expr × Bool
  | true, e => (e, true)
  | false, .call callee args =>
    (match h callee args with
     | some args2 => (.call callee args2, true)
     | none =>
       let rf := wtE h false callee
       let ra := wtEs h rf.2 args
       (.call rf.1 ra.1, ra.2))
  | false, .ident n => (.ident n, false)
  | false, .strLit s => (.strLit s, false)
  | false, .arrLit es => let r := wtEs h false es; (.arrLit r.1, r.2)
  | false, .objLit fs => let r := wtFs h false fs; (.objLit r.1, r.2)
  | false, .member o p => let r := wtE h false o; (.member r.1 p, r.2)
  | false, .arrow ps b => let r := wtAB h false b; (.arrow ps r.1, r.2)
  | false, .jsx el => let r := wtElem h false el; (.jsx r.1, r.2)
  | false, .jsxContainer e =>
    let r := wtE h false e
    (.jsxContainer r.1, r.2)
  | false, .otherExpr => (.otherExpr, false)

def wtEs (h : CallHandler) : Bool → List Expr → List Expr × Bool
  | f, [] => ([], f)
  | f, e :: rest =>
    let r := wtE h f e
    let rr := wtEs h r.2 rest
    (r.1 :: rr.1, rr.2)

def wtOE (h : CallHandler) : Bool → Option Expr → Option Expr × Bool
  | f, none => (none, f)
  | f, some e => let r := wtE h f e; (some r.1, r.2)

def wtAB (h : CallHandler) : Bool → ArrowBody → ArrowBody × Bool
  | f, .block ss => let r := wtSs h f ss; (.block r.1, r.2)
  | f, .expr e => let r := wtE h f e; (.expr r.1, r.2)

def wtElem (h : CallHandler) : Bool → JSXElem → JSXElem × Bool
  | f, .mk tag attrs children selfClosing =>
    let ra := wtAs h f attrs
    let rc := wtChs h ra.2 children
    (.mk tag ra.1 rc.1 selfClosing, rc.2)

def wtA (h : CallHandler) : Bool → JSXAttr → JSXAttr × Bool
  | f, .attr n (some (.container e)) =>
    let r := wtE h f e
    (.attr n (some (.container r.1)), r.2)
  | f, .attr n v => (.attr n v, f)
  | f, .spread e => let r := wtE h f e; (.spread r.1, r.2)

def wtAs (h : CallHandler) : Bool → List JSXAttr → List JSXAttr × Bool
  | f, [] => ([], f)
  | f, a :: rest =>
    let r := wtA h f a
    let rr := wtAs h r.2 rest
    (r.1 :: rr.1, rr.2)

def wtCh (h : CallHandler) : Bool → JSXChild → JSXChild × Bool
  | f, .elem el => let r := wtElem h f el; (.elem r.1, r.2)
  | f, .exprChild e => let r := wtE h f e; (.exprChild r.1, r.2)
  | f, .textChild s => (.textChild s, f)

def wtChs (h : CallHandler) : Bool → List JSXChild → List JSXChild × Bool
  | f, [] => ([], f)
  | f, ch :: rest =>
    let r := wtCh h f ch
    let rr := wtChs h r.2 rest
    (r.1 :: rr.1, rr.2)

def wtD (h : CallHandler) : Bool → VarDtor → VarDtor × Bool
  | f, .mk pat init => let r := wtOE h f init; (.mk pat r.1, r.2)

def wtDs (h : CallHandler) : Bool → List VarDtor → List VarDtor × Bool
  | f, [] => ([], f)
  | f, d :: rest =>
    let r := wtD h f d
    let rr := wtDs h r.2 rest
    (r.1 :: rr.1, rr.2)

def wtF (h : CallHandler) : Bool → ObjField → ObjField × Bool
  | f, .mk k v => let r := wtE h f v; (.mk k r.1, r.2)

def wtFs (h : CallHandler) : Bool → List ObjField → List ObjField × Bool
  | f, [] => ([], f)
  | f, fd :: rest =>
    let r := wtF h f fd
    let rr := wtFs h r.2 rest
    (r.1 :: rr.1, rr.2)

def wtM (h : CallHandler) : Bool → ClassMethod → ClassMethod × Bool
  | f, .mk k b => let r := wtSs h f b; (.mk k r.1, r.2)

def wtMs (h : CallHandler) : Bool → List ClassMethod → List ClassMethod × Bool
  | f, [] => ([], f)
  | f, m :: rest =>
    let r := wtM h f m
    let rr := wtMs h r.2 rest
    (r.1 :: rr.1, rr.2)

end

/-- Embedding of the render-wrapping portion of
`integrateAartisanProvider` on one parsed entry file: the four pattern
traversals in fixed order, each later one only running when
`rootElementFound` is still unset. -/
def integrateRenderWrap (appName : String) (program : List Stmt) :
    List Stmt :=
  let r1 := wtSs (pattern1Handle appName) false program
  if r1.2 then r1.1
  else
    let r2 := wtSs (pattern2Handle appName) false r1.1
    if r2.2 then r2.1
    else
      let r3 := wtSs (pattern3Handle appName) false r2.1
      if r3.2 then r3.1
      else (wtSs (pattern4Handle appName) false r3.1).1

/-! ### Call-free subtrees

A subtree with no `CallExpression` at all is invisible to the four pattern
traversals: no handler can fire inside it.  The predicate is used to carve
out the entry-file arguments for which the wrapping theorems are stated. -/

mutual

def callFreeS : Stmt → Bool
  | .funcDecl _ _ body => callFreeSs body
  | .varDecl _ ds => callFreeDs ds
  | .ret arg => callFreeOE arg
  | .exprStmt e => callFreeE e
  | .classDecl _ sc ms => callFreeOE sc && callFreeMs ms
  | .otherStmt => true

def callFreeSs : List Stmt → Bool
  | [] => true
  | s :: rest => callFreeS s && callFreeSs rest

def callFreeE : Expr → Bool
  | .ident _ => true
  | .strLit _ => true
  | .arrLit es => callFreeEs es
  | .objLit fs => callFreeFs fs
  | .call _ _ => false
  | .member o _ => callFreeE o
  | .arrow _ b => callFreeAB b
  | .jsx el => callFreeElem el
  | .jsxContainer e => callFreeE e
  | .otherExpr => true

def callFreeEs : List Expr → Bool
  | [] => true
  | e :: rest => callFreeE e && callFreeEs rest

def callFreeOE : Option Expr → Bool
  | none => true
  | some e => callFreeE e

def callFreeAB : ArrowBody → Bool
  | .block ss => callFreeSs ss
  | .expr e => callFreeE e

def callFreeElem : JSXElem → Bool
  | .mk _ attrs children _ => callFreeAs attrs && callFreeChs children

def callFreeA : JSXAttr → Bool
  | .attr _ (some (.container e)) => callFreeE e
  | .attr _ _ => true
  | .spread e => callFreeE e

def callFreeAs : List JSXAttr → Bool
  | [] => true
  | a :: rest => callFreeA a && callFreeAs rest

def callFreeCh : JSXChild → Bool
  | .elem el => callFreeElem el
  | .exprChild e => callFreeE e
  | .textChild _ => true

def callFreeChs : List JSXChild → Bool
  | [] => true
  | ch :: rest => callFreeCh ch && callFreeChs rest

def callFreeD : VarDtor → Bool
  | .mk _ init => callFreeOE init

def callFreeDs : List VarDtor → Bool
  | [] => true
  | d :: rest => callFreeD d && callFreeDs rest

def callFreeF : ObjField → Bool
  | .mk _ v => callFreeE v

def callFreeFs : List ObjField → Bool
  | [] => true
  | f :: rest => callFreeF f && callFreeFs rest

def callFreeM : ClassMethod → Bool
  | .mk _ b => callFreeSs b

def callFreeMs : List ClassMethod → Bool
  | [] => true
  | m :: rest => callFreeM m && callFreeMs rest

end

/-! ### The six-phase orchestrator (`portProject`)

`portProject` runs a fixed phase list; each phase runs under a spinner whose
failure line is `` `${phase.name} failed: ${error.message}` `` and any
thrown error is rethrown, aborting the loop.  Thrown errors are modelled
with `Except String`; the spinner lines of the phases that actually ran form
the log, so "phase did not run" is "its name heads no log line". -/

/-- The dependency maps of a parsed `package.json`. -/
structure PackageJson where
  name : Option String := none
  dependencies : List (String × String) := []
  devDependencies : List (String × String) := []
deriving DecidableEq, Repr

/-- `deps?.[key]` followed by a truthiness test: the key must be present
with a non-empty string value. -/
def truthyDep (deps : List (String × String)) (key : String) : Bool :=
  match deps.find? fun p => p.1 == key with
  | some kv => !(kv.2 == "")
  | none => false

/-- `deps?.[key] !== undefined`: presence only. -/
def presentDep (deps : List (String × String)) (key : String) : Bool :=
  (deps.find? fun p => p.1 == key).isSome

/-- A file of the source tree, by base name (the directory walk of
`findFiles` is flattened; excluded directories are simply absent). -/
structure FileEnt where
  fileName : String
deriving DecidableEq, Repr

/-- The inputs `analyzeProjectStructure` reads from disk. -/
structure SrcFS where
  packageJson : Option PackageJson := none
  hasTsconfig : Bool := false
  files : List FileEnt := []
deriving DecidableEq, Repr

/-- The `projectInfo` fields the analyze phase fills in. -/
structure ProjInfo where
  pjName : Option String := none
  buildSystem : String := "unknown"
  usesTypeScript : Bool := false
  router : String := "unknown"
deriving DecidableEq, Repr

/-- The shared `PortContext` threaded through the phases (the slice the
model needs). -/
structure PortCtx where
  projectInfo : Option ProjInfo := none
  componentFiles : List String := []
  entryPoints : List String := []
  routeFiles : List String := []
deriving DecidableEq, Repr

/-- Model of `path.extname` on a base name: the suffix from the last dot. -/
def extnameOf (s : String) : String :=
  let parts := s.splitOn "."
  if parts.length ≤ 1 then ""
  else "." ++ ((parts.reverse.head?).getD "")

/-- Embedding of phase 1, `analyzeProjectStructure(context)`: read the
manifest (throw when missing), fail when `dependencies.react` is falsy,
classify the build system, TypeScript use and router, then enumerate
component files, entry points and route files by extension and name. -/
def analyzeProjectStructure (fs : SrcFS) (ctx : PortCtx) :
    Except String PortCtx :=
  match fs.packageJson with
  | none => .error "package.json not found in source directory"
  | some pj =>
    if !truthyDep pj.dependencies "react" then
      .error "Not a React project (react not found in dependencies)"
    else
      let buildSystem :=
        if truthyDep pj.dependencies "next" || truthyDep pj.devDependencies "next" then
          "next"
        else if truthyDep pj.dependencies "@remix-run/react" ||
            truthyDep pj.devDependencies "@remix-run/react" then "remix"
        else if truthyDep pj.devDependencies "vite" then "vite"
        else if truthyDep pj.devDependencies "webpack" then "webpack"
        else if truthyDep pj.devDependencies "react-scripts" ||
            truthyDep pj.dependencies "react-scripts" then "cra"
        else "unknown"
      let usesTypeScript :=
        presentDep pj.devDependencies "typescript" || fs.hasTsconfig
      let router :=
        if truthyDep pj.dependencies "react-router-dom" then "react-router"
        else if truthyDep pj.dependencies "@tanstack/react-router" then
          "tanstack-router"
        else if truthyDep pj.dependencies "next" then "next-router"
        else "unknown"
      let extensions :=
        if usesTypeScript then [".tsx", ".jsx", ".js", ".ts"]
        else [".jsx", ".js"]
      let componentFiles :=
        fs.files.filter fun f => extensions.contains (extnameOf f.fileName)
      let entryPoints :=
        componentFiles.filter fun f =>
          ["main.jsx", "main.tsx", "index.jsx", "index.tsx",
           "App.jsx", "App.tsx"].contains f.fileName
      let routeFiles :=
        componentFiles.filter fun f =>
          ["routes.jsx", "routes.tsx"].contains f.fileName ||
          containsStr "Route" f.fileName || containsStr "router" f.fileName
      .ok { ctx with
        projectInfo := some
          { pjName := pj.name, buildSystem, usesTypeScript, router }
        componentFiles := componentFiles.map (·.fileName)
        entryPoints := entryPoints.map (·.fileName)
        routeFiles := routeFiles.map (·.fileName) }

/-- Phase 2, `copyProjectFiles`: a recursive file-system copy with no
decision logic relevant to the claims; modelled as success. -/
def copyProjectFiles (ctx : PortCtx) : Except String PortCtx := .ok ctx

/-- Phase 3, `transformComponents`: per-file work (its per-component loop is
modelled separately as `enhanceLoop`); the phase function itself only does
file input/output around it and is modelled as success. -/
def transformComponentsPhase (ctx : PortCtx) : Except String PortCtx := .ok ctx

/-- Phase 4, `integrateAartisanProvider`: entry-file rewriting (its
wrapping core is modelled as `integrateRenderWrap`); modelled as success. -/
def integrateProviderPhase (ctx : PortCtx) : Except String PortCtx := .ok ctx

/-- Phase 5, `updateConfiguration`: manifest and bundler-config edits;
modelled as success. -/
def updateConfiguration (ctx : PortCtx) : Except String PortCtx := .ok ctx

/-- Phase 6, `finalizeProject`: documentation output; modelled as
success. -/
def finalizeProject (ctx : PortCtx) : Except String PortCtx := .ok ctx

/-- The fixed phase list of `portProject`, with the exact spinner names. -/
def portPhases (fs : SrcFS) :
    List (String × (PortCtx → Except String PortCtx)) :=
  [("Analyzing project structure", analyzeProjectStructure fs),
   ("Copying project files", copyProjectFiles),
   ("Transforming components", transformComponentsPhase),
   ("Integrating Aartisan provider", integrateProviderPhase),
   ("Updating configuration", updateConfiguration),
   ("Finalizing project", finalizeProject)]

/-- The phase loop of `portProject`: run the phases in order; log the
phase name on success and `name failed: message` on failure; a failure
rethrows and aborts the remaining phases. -/
def runPhases :
    List (String × (PortCtx → Except String PortCtx)) → PortCtx →
    List String × Except String PortCtx
  | [], ctx => ([], .ok ctx)
  | (phaseName, f) :: rest, ctx =>
    match f ctx with
    | .ok ctx2 =>
      let r := runPhases rest ctx2
      (phaseName :: r.1, r.2)
    | .error e => ([phaseName ++ " failed: " ++ e], .error e)

/-- Embedding of `portProject(sourcePath, outputPath, options)`: the phase
loop over the fixed list, starting from the empty context. -/
def portProject (fs : SrcFS) : List String × Except String PortCtx :=
  runPhases (portPhases fs) {}

/-! ## Theorems -/

/-- Peeling lemma for the if-chains of `inferPurpose`: membership. -/
theorem ifChainMemStr {c : Prop} [Decidable c] {a b : String}
    {l : List String} (ha : a ∈ l) (hb : b ∈ l) : (if c then a else b) ∈ l := by
  split <;> assumption

/-- Peeling lemma for the if-chains of `inferPurpose`: non-emptiness. -/
theorem ifChainNeStr {c : Prop} [Decidable c] {a b : String}
    (ha : a ≠ "") (hb : b ≠ "") : (if c then a else b) ≠ "" := by
  split <;> assumption

/-- C6: for every input name string, the heuristic purpose inferencer
returns a purpose string drawn from the closed taxonomy, falling through to
`ui-component` when no pattern matches, and the result is never empty (and,
being total and string-valued, never `null`/`undefined`). -/
theorem inferPurpose_total (name : String) :
    inferPurpose name ∈ purposeTaxonomy ∧ inferPurpose name ≠ "" := by
  constructor
  · unfold inferPurpose
    repeat' apply ifChainMemStr
    all_goals decide
  · unfold inferPurpose
    repeat' apply ifChainNeStr
    all_goals decide

/-- C7 counterexample: the code performs no secondary-substring
disambiguation.  `DeleteButton` yields `action-button`, not the claimed
`delete-button`, and `ShoppingListItem` matches `/list/` first and yields
`list-container`, not the claimed `list-item`. -/
theorem inferPurpose_no_secondary_disambiguation :
    inferPurpose "DeleteButton" = "action-button" ∧
    inferPurpose "DeleteButton" ≠ "delete-button" ∧
    inferPurpose "ShoppingListItem" = "list-container" ∧
    inferPurpose "ShoppingListItem" ≠ "list-item" := by
  refine ⟨by decide, by decide, by decide, by decide⟩

/-- C7 amended: every name matching `/button/i` yields `action-button`
(with no secondary disambiguation); every name matching `/list/i` (and not
`/button/i` or `/card/i`) yields `list-container` regardless of whether it
also contains `item`; `item` yields `list-item` only when `button`, `card`
and `list` are all absent. -/
theorem inferPurpose_branch_order (name : String) :
    (ciTest "button" name = true → inferPurpose name = "action-button") ∧
    (ciTest "button" name = false → ciTest "card" name = false →
      ciTest "list" name = true → inferPurpose name = "list-container") ∧
    (ciTest "button" name = false → ciTest "card" name = false →
      ciTest "list" name = false → ciTest "item" name = true →
      inferPurpose name = "list-item") := by
  refine ⟨?_, ?_, ?_⟩
  · intro h1
    unfold inferPurpose
    rw [if_pos h1]
  · intro h1 h2 h3
    unfold inferPurpose
    rw [if_neg (by simp [h1]), if_neg (by simp [h2]), if_pos h3]
  · intro h1 h2 h3 h4
    unfold inferPurpose
    rw [if_neg (by simp [h1]), if_neg (by simp [h2]), if_neg (by simp [h3]),
      if_pos h4]

/-- C7 amended witness: concrete instances of the three branches. -/
theorem inferPurpose_branch_order_witness :
    inferPurpose "DeleteButton" = "action-button" ∧
    inferPurpose "ShoppingListItem" = "list-container" ∧
    inferPurpose "TodoItem" = "list-item" :=
  ⟨(inferPurpose_branch_order "DeleteButton").1 (by decide),
   (inferPurpose_branch_order "ShoppingListItem").2.1 (by decide) (by decide)
     (by decide),
   (inferPurpose_branch_order "TodoItem").2.2 (by decide) (by decide)
     (by decide) (by decide)⟩

/-- C9 counterexample: a class extending `Preact.Component` — a two-level
member expression whose property is literally named `Component` — is not
classified as a React class component, because the source additionally
requires the object to be literally named `React`. -/
theorem isReactClassComponent_namespace_counterexample :
    isReactClassComponent
      (.classDecl "MyThing" (some (.member (.ident "Preact") "Component")) [])
      = false := rfl

/-- C9 amended: a class declaration is classified as a UI component iff its
superclass is the bare identifier `Component` or exactly the member
expression `React.Component` (object literally `React`, property literally
`Component`). -/
theorem isReactClassComponent_characterization (n : String)
    (sc : Option Expr) (ms : List ClassMethod) :
    isReactClassComponent (.classDecl n sc ms) = true ↔
      sc = some (.ident "Component") ∨
      sc = some (.member (.ident "React") "Component") := by
  constructor
  · intro h
    unfold isReactClassComponent at h
    match sc, h with
    | some (.ident nm), h =>
      left
      have : nm = "Component" := by simpa using h
      rw [this]
    | some (.member (.ident onm) p), h =>
      right
      have h2 : onm = "React" ∧ p = "Component" := by simpa using h
      rw [h2.1, h2.2]
  · rintro (rfl | rfl) <;> rfl

/-- C4: with a missing manifest, or a manifest whose `dependencies` carry no
(truthy) `react` entry, the port aborts during phase 1 with the
phase-qualified failure line and the phase error as the rejected result; in
particular neither the copy phase nor the provider-integration phase ever
runs (their names appear in no log entry). -/
theorem portProject_aborts_in_phase1 (fs : SrcFS) (pj : PackageJson) :
    (fs.packageJson = none →
      portProject fs =
        (["Analyzing project structure failed: package.json not found in source directory"],
         .error "package.json not found in source directory") ∧
      "Copying project files" ∉ (portProject fs).1 ∧
      "Integrating Aartisan provider" ∉ (portProject fs).1) ∧
    (fs.packageJson = some pj → truthyDep pj.dependencies "react" = false →
      portProject fs =
        (["Analyzing project structure failed: Not a React project (react not found in dependencies)"],
         .error "Not a React project (react not found in dependencies)") ∧
      "Copying project files" ∉ (portProject fs).1 ∧
      "Integrating Aartisan provider" ∉ (portProject fs).1) := by
  constructor
  · intro h
    have hrun : portProject fs =
        (["Analyzing project structure failed: package.json not found in source directory"],
         .error "package.json not found in source directory") := by
      simp [portProject, portPhases, runPhases, analyzeProjectStructure, h]
    refine ⟨hrun, ?_, ?_⟩ <;> simp [hrun]
  · intro h h2
    have hrun : portProject fs =
        (["Analyzing project structure failed: Not a React project (react not found in dependencies)"],
         .error "Not a React project (react not found in dependencies)") := by
      simp [portProject, portPhases, runPhases, analyzeProjectStructure, h, h2]
    refine ⟨hrun, ?_, ?_⟩ <;> simp [hrun]

/-- C4 witness: a file system with no manifest at all, and one whose
manifest only depends on `left-pad`. -/
theorem portProject_aborts_in_phase1_witness :
    (portProject {} =
      (["Analyzing project structure failed: package.json not found in source directory"],
       .error "package.json not found in source directory")) ∧
    (portProject { packageJson := some { dependencies := [("left-pad", "^1.0.0")] } } =
      (["Analyzing project structure failed: Not a React project (react not found in dependencies)"],
       .error "Not a React project (react not found in dependencies)")) :=
  ⟨((portProject_aborts_in_phase1 {} {}).1 rfl).1,
   ((portProject_aborts_in_phase1
      { packageJson := some { dependencies := [("left-pad", "^1.0.0")] } }
      { dependencies := [("left-pad", "^1.0.0")] }).2 rfl (by decide)).1⟩

/-- C5: if the AI analysis call fails for every component of a file, the
per-component catch swallows each failure (the loop is a total function:
nothing propagates, sibling components are still processed) and the
content produced equals what the heuristic-only path (`useAI = false`)
produces. -/
theorem aiFailureFallsBackToHeuristic
    (aiCall : Component → Except String AIAnalysis) (level : String) :
    ∀ (comps : List Component) (code : List Stmt),
      (∀ c ∈ comps, ∃ e, aiCall c = .error e) →
      enhanceLoop true aiCall level comps code =
        enhanceLoop false aiCall level comps code
  | [], _, _ => rfl
  | c :: rest, code, hfail => by
    obtain ⟨e, he⟩ := hfail c (List.mem_cons_self c rest)
    have hone : enhanceOneComponent true aiCall code c level
        = enhanceOneComponent false aiCall code c level := by
      unfold enhanceOneComponent
      rw [he]
      simp
    rw [enhanceLoop, enhanceLoop, hone]
    exact aiFailureFallsBackToHeuristic aiCall level rest _
      fun c2 h2 => hfail c2 (List.mem_cons_of_mem c h2)

/-- C5 witness: an always-failing provider call on a concrete component. -/
theorem aiFailureFallsBackToHeuristic_witness :
    enhanceLoop true (fun _ => .error "network timeout") "standard"
        [⟨"DeleteButton", "function", "action-button", ["onClick"], none⟩] [] =
      enhanceLoop false (fun _ => .error "network timeout") "standard"
        [⟨"DeleteButton", "function", "action-button", ["onClick"], none⟩] [] :=
  aiFailureFallsBackToHeuristic (fun _ => .error "network timeout") "standard"
    [⟨"DeleteButton", "function", "action-button", ["onClick"], none⟩] []
    fun _ _ => ⟨"network timeout", rfl⟩

/-! ### Lemmas about the hook splice -/

/-- The splice search is a no-op (with unset flag) on any list of string
literals. -/
theorem sfrEs_of_strLits (l : List Expr)
    (h : ∀ e ∈ l, ∃ s, e = Expr.strLit s) : sfrEs l = (l, false) := by
  induction l with
  | nil => rfl
  | cons a t ih =>
    have ht := ih fun e he => h e (List.mem_cons_of_mem a he)
    obtain ⟨s, rfl⟩ := h a (List.mem_cons_self a t)
    simp [sfrEs, sfrE, ht]

/-- The hook-call statement contains no return statement, so the splice
search passes over it unchanged. -/
theorem sfrS_hookCallStmt (c : Component) :
    sfrS (hookCallStmt c) = (hookCallStmt c, false) := by
  have hlits :
      sfrEs
        (((c.eventHandlers.filter fun h => !h.isEmpty && strStartsWith h "on").map
            fun h => strToLower (stripOnHead h)).map Expr.strLit) =
        ((((c.eventHandlers.filter fun h => !h.isEmpty && strStartsWith h "on")).map
            fun h => strToLower (stripOnHead h)).map Expr.strLit, false) :=
    sfrEs_of_strLits _ (by
      intro e he
      simp only [List.mem_map] at he
      obtain ⟨s, _, rfl⟩ := he
      exact ⟨s, rfl⟩)
  unfold hookCallStmt
  simp only [sfrS, sfrDs, sfrD, sfrOE, sfrE, sfrEs, sfrFs, sfrF, hlits]
  simp

/-- Splice search over an appended list whose prefix has no JSX-returning
return. -/
theorem sfrSs_append (pre rest : List Stmt)
    (h : sfrSs pre = (pre, false)) :
    sfrSs (pre ++ rest) = (pre ++ (sfrSs rest).1, (sfrSs rest).2) := by
  induction pre with
  | nil => simp
  | cons p t ih =>
    simp only [sfrSs] at h
    split at h
    · simp at h
    · next hcond =>
      rw [Prod.ext_iff] at h
      obtain ⟨hl, hf⟩ := h
      simp only at hl hf
      obtain ⟨hp, ht⟩ := List.cons.inj hl
      have hrec := ih (by rw [Prod.ext_iff]; exact ⟨ht, hf⟩)
      have hc2 : (sfrS p).2 = false := by
        cases hv : (sfrS p).2
        · rfl
        · exact absurd hv hcond
      simp only [List.cons_append, sfrSs]
      simp [hc2, hp, hrec]

/-- One splice step over a statement the search passes over. -/
theorem sfrSs_cons_nosplice (s : Stmt) (rest : List Stmt)
    (h : sfrS s = (s, false)) :
    sfrSs (s :: rest) = (s :: (sfrSs rest).1, (sfrSs rest).2) := by
  simp [sfrSs, h]

/-- The splice fires on a return statement directly returning a JSX
element. -/
theorem sfrSs_cons_ret (el : JSXElem) (rest : List Stmt) :
    sfrSs (.ret (some (.jsx el)) :: rest) =
      (.ret (some (.jsx (enhanceJSXElement el))) :: rest, true) := by
  simp [sfrSs, sfrS]

/-- The inner splice of `addHookToFunction`: with a prefix free of
JSX-returning returns, the hook lands in front and the first JSX return's
element is enhanced; the rest is untouched. -/
theorem addHookToFunctionBody_splice (c : Component) (pre post : List Stmt)
    (el : JSXElem) (hPre : sfrSs pre = (pre, false)) :
    addHookToFunctionBody c (pre ++ .ret (some (.jsx el)) :: post) =
      (hookCallStmt c :: pre ++
        .ret (some (.jsx (enhanceJSXElement el))) :: post, true) := by
  unfold addHookToFunctionBody
  rw [sfrSs_cons_nosplice _ _ (sfrS_hookCallStmt c),
    sfrSs_append pre _ hPre, sfrSs_cons_ret]
  rfl

/-- `enhanceJSXElement` in the claim's phrasing: the original attributes,
then a `ref` attribute only when no `ref` attribute is present, then the
`{...aiProps}` spread. -/
theorem enhanceJSXElement_spec (tag : String) (attrs : List JSXAttr)
    (ch : List JSXChild) (sc : Bool) :
    enhanceJSXElement (.mk tag attrs ch sc) =
      .mk tag ((attrs ++ (if hasRefAttr attrs then [] else [refAttr])) ++
        [aiPropsSpread]) ch sc := by
  unfold enhanceJSXElement
  cases hr : hasRefAttr attrs <;> simp [hr]

/-- `hookCallStmt` in the claim's phrasing: `interactions` is the
`eventHandlers` list filtered to names starting with `on`, with the `on`
prefix stripped (drop two characters) and lower-cased. -/
theorem hookCallStmt_spec (c : Component) :
    hookCallStmt c =
      .varDecl "const"
        [.mk (.objPat ["ref", "aiProps"])
          (some (.call (.ident "useAIEnhanced")
            [.strLit c.name,
             .objLit
               [.mk "purpose" (.strLit c.purpose),
                .mk "interactions"
                  (.arrLit
                    (((c.eventHandlers.filter fun h =>
                          strStartsWith h "on").map fun h =>
                        strToLower (h.drop 2)).map Expr.strLit))]]))] := by
  unfold hookCallStmt
  have h1 : (c.eventHandlers.filter fun h => !h.isEmpty && strStartsWith h "on")
      = c.eventHandlers.filter fun h => strStartsWith h "on" := by
    refine List.filter_congr fun a _ => ?_
    cases he : a.isEmpty
    · simp
    · have ha : a = "" := (String.isEmpty_iff a).mp he
      subst ha
      decide
  rw [h1]
  have h2 : ((c.eventHandlers.filter fun h => strStartsWith h "on").map
        fun h => strToLower (stripOnHead h))
      = (c.eventHandlers.filter fun h => strStartsWith h "on").map
        fun h => strToLower (h.drop 2) := by
    refine List.map_congr_left fun a ha => ?_
    have hs : strStartsWith a "on" = true := by
      have := List.mem_filter.mp ha
      simpa using this.2
    unfold stripOnHead
    rw [if_pos hs]
  rw [h2]

/-- C1: for a function or arrow component whose name is not `App`, the
standard-level enhancement inserts the hook-call statement — binding `ref`
and `aiProps` from `useAIEnhanced(componentName, {purpose, interactions})`,
where `interactions` is the `eventHandlers` list filtered to names starting
with `on`, with the `on` prefix stripped and lower-cased — as the first
statement of the body; the first JSX-returning return's root element gains a
`ref` attribute only when none is present plus a spread `aiProps` attribute;
and an arrow whose body is a bare JSX element is converted to a block
holding the hook call and an explicit return of that (enhanced) JSX.  The
hypotheses state that the prefix holds no JSX-returning return and that no
other declaration named like the component occurs in the quantified
pieces. -/
theorem standardHookEnhancement (c : Component) (ps : List Pat) (k : String)
    (pre post : List Stmt) (tag : String) (attrs : List JSXAttr)
    (ch : List JSXChild) (sc : Bool)
    (hApp : c.name ≠ "App")
    (hPre : sfrSs pre = (pre, false))
    (hBody : ahSs c (pre ++ .ret (some (.jsx (.mk tag attrs ch sc))) :: post)
      = (pre ++ .ret (some (.jsx (.mk tag attrs ch sc))) :: post, false))
    (hElem : ahE c (.jsx (.mk tag attrs ch sc))
      = (.jsx (.mk tag attrs ch sc), false)) :
    (enhanceFunctionComponent
        [.funcDecl c.name ps
          (pre ++ .ret (some (.jsx (.mk tag attrs ch sc))) :: post)]
        c "standard"
      = [.funcDecl c.name ps
          (.varDecl "const"
              [.mk (.objPat ["ref", "aiProps"])
                (some (.call (.ident "useAIEnhanced")
                  [.strLit c.name,
                   .objLit
                     [.mk "purpose" (.strLit c.purpose),
                      .mk "interactions"
                        (.arrLit
                          (((c.eventHandlers.filter fun h =>
                                strStartsWith h "on").map fun h =>
                              strToLower (h.drop 2)).map Expr.strLit))]]))]
            :: pre ++
            .ret (some (.jsx (.mk tag
              ((attrs ++ (if hasRefAttr attrs then [] else [refAttr])) ++
                [aiPropsSpread]) ch sc))) :: post)]) ∧
    (enhanceFunctionComponent
        [.varDecl k [.mk (.id c.name)
          (some (.arrow ps (.block
            (pre ++ .ret (some (.jsx (.mk tag attrs ch sc))) :: post))))]]
        c "standard"
      = [.varDecl k [.mk (.id c.name)
          (some (.arrow ps (.block
            (hookCallStmt c :: pre ++
              .ret (some (.jsx (enhanceJSXElement (.mk tag attrs ch sc))))
              :: post))))]]) ∧
    (enhanceFunctionComponent
        [.varDecl k [.mk (.id c.name)
          (some (.arrow ps (.expr (.jsx (.mk tag attrs ch sc)))))]]
        c "standard"
      = [.varDecl k [.mk (.id c.name)
          (some (.arrow ps (.block
            [hookCallStmt c,
             .ret (some (.jsx (enhanceJSXElement (.mk tag attrs ch sc))))])))]]) := by
  have hbeq : (c.name == "App") = false := beq_eq_false_iff_ne.mpr hApp
  have hself : (c.name == c.name) = true := beq_self_eq_true c.name
  have hstd1 : (("standard" : String) == "basic") = false := by decide
  have hstd2 : (("standard" : String) == "advanced") = false := by decide
  have hsplice := addHookToFunctionBody_splice c pre post (.mk tag attrs ch sc) hPre
  refine ⟨?_, ?_, ?_⟩
  · have h1 : ahS c (.funcDecl c.name ps
        (pre ++ .ret (some (.jsx (.mk tag attrs ch sc))) :: post)) =
        (.funcDecl c.name ps
          (hookCallStmt c :: pre ++
            .ret (some (.jsx (enhanceJSXElement (.mk tag attrs ch sc))))
            :: post), true) := by
      simp only [ahS, hBody, hself, if_true, hsplice, Bool.false_or]
    have hAhProg : addAIEnhancedHook
        [Stmt.funcDecl c.name ps
          (pre ++ .ret (some (.jsx (.mk tag attrs ch sc))) :: post)] c =
        [Stmt.funcDecl c.name ps
          (hookCallStmt c :: pre ++
            .ret (some (.jsx (enhanceJSXElement (.mk tag attrs ch sc))))
            :: post)] := by
      unfold addAIEnhancedHook
      simp only [ahSs, h1]
      simp
    unfold enhanceFunctionComponent
    rw [if_neg (by simp [hbeq]), if_neg (by simp [hstd1]),
      if_neg (by simp [hstd2]), hAhProg, hookCallStmt_spec,
      enhanceJSXElement_spec]
  · have hblk : addHookToArrowBody c (.block
        (pre ++ .ret (some (.jsx (.mk tag attrs ch sc))) :: post)) =
        (.block (hookCallStmt c :: pre ++
          .ret (some (.jsx (enhanceJSXElement (.mk tag attrs ch sc))))
          :: post), true) := by
      have h0 := hsplice
      unfold addHookToFunctionBody at h0
      simp [addHookToArrowBody, h0]
    have h1 : ahD c (.mk (.id c.name) (some (.arrow ps (.block
        (pre ++ .ret (some (.jsx (.mk tag attrs ch sc))) :: post))))) =
        (.mk (.id c.name) (some (.arrow ps (.block
          (hookCallStmt c :: pre ++
            .ret (some (.jsx (enhanceJSXElement (.mk tag attrs ch sc))))
            :: post)))), true) := by
      simp only [ahD, ahAB, hBody, hself, if_true, hblk, Bool.false_or]
    have hAhProg : addAIEnhancedHook
        [Stmt.varDecl k [.mk (.id c.name) (some (.arrow ps (.block
          (pre ++ .ret (some (.jsx (.mk tag attrs ch sc))) :: post))))]] c =
        [Stmt.varDecl k [.mk (.id c.name) (some (.arrow ps (.block
          (hookCallStmt c :: pre ++
            .ret (some (.jsx (enhanceJSXElement (.mk tag attrs ch sc))))
            :: post))))]] := by
      unfold addAIEnhancedHook
      simp only [ahSs, ahS, ahDs, h1]
      simp
    unfold enhanceFunctionComponent
    rw [if_neg (by simp [hbeq]), if_neg (by simp [hstd1]),
      if_neg (by simp [hstd2]), hAhProg]
  · have h1 : ahD c (.mk (.id c.name)
        (some (.arrow ps (.expr (.jsx (.mk tag attrs ch sc)))))) =
        (.mk (.id c.name) (some (.arrow ps (.block
          [hookCallStmt c,
           .ret (some (.jsx (enhanceJSXElement (.mk tag attrs ch sc))))]))),
         true) := by
      simp only [ahD, ahAB, hElem, hself, if_true, addHookToArrowBody,
        Bool.false_or]
    have hAhProg : addAIEnhancedHook
        [Stmt.varDecl k [.mk (.id c.name)
          (some (.arrow ps (.expr (.jsx (.mk tag attrs ch sc)))))]] c =
        [Stmt.varDecl k [.mk (.id c.name) (some (.arrow ps (.block
          [hookCallStmt c,
           .ret (some (.jsx (enhanceJSXElement (.mk tag attrs ch sc))))])))]] := by
      unfold addAIEnhancedHook
      simp only [ahSs, ahS, ahDs, h1]
      simp
    unfold enhanceFunctionComponent
    rw [if_neg (by simp [hbeq]), if_neg (by simp [hstd1]),
      if_neg (by simp [hstd2]), hAhProg]

/-- C1 witness: the spec's own example, `function DeleteButton({onClick}) {
return <button onClick={onClick}>X</button>; }` at the standard level, in
all three component shapes. -/
theorem standardHookEnhancement_witness :
    (enhanceFunctionComponent
        [.funcDecl "DeleteButton" [.objPat ["onClick"]]
          [.ret (some (.jsx (.mk "button"
            [.attr "onClick" (some (.container (.ident "onClick")))]
            [.textChild "X"] false)))]]
        ⟨"DeleteButton", "function", "action-button", ["onClick"], none⟩
        "standard"
      = [.funcDecl "DeleteButton" [.objPat ["onClick"]]
          [.varDecl "const"
            [.mk (.objPat ["ref", "aiProps"])
              (some (.call (.ident "useAIEnhanced")
                [.strLit "DeleteButton",
                 .objLit
                   [.mk "purpose" (.strLit "action-button"),
                    .mk "interactions" (.arrLit [.strLit "click"])]]))],
           .ret (some (.jsx (.mk "button"
             [.attr "onClick" (some (.container (.ident "onClick"))),
              .attr "ref" (some (.container (.ident "ref"))),
              .spread (.ident "aiProps")]
             [.textChild "X"] false)))]]) ∧
    (enhanceFunctionComponent
        [.varDecl "const" [.mk (.id "DeleteButton")
          (some (.arrow [.objPat ["onClick"]] (.block
            [.ret (some (.jsx (.mk "button"
              [.attr "onClick" (some (.container (.ident "onClick")))]
              [.textChild "X"] false)))])))]]
        ⟨"DeleteButton", "function", "action-button", ["onClick"], none⟩
        "standard"
      = [.varDecl "const" [.mk (.id "DeleteButton")
          (some (.arrow [.objPat ["onClick"]] (.block
            [.varDecl "const"
              [.mk (.objPat ["ref", "aiProps"])
                (some (.call (.ident "useAIEnhanced")
                  [.strLit "DeleteButton",
                   .objLit
                     [.mk "purpose" (.strLit "action-button"),
                      .mk "interactions" (.arrLit [.strLit "click"])]]))],
             .ret (some (.jsx (.mk "button"
               [.attr "onClick" (some (.container (.ident "onClick"))),
                .attr "ref" (some (.container (.ident "ref"))),
                .spread (.ident "aiProps")]
               [.textChild "X"] false)))])))]]) ∧
    (enhanceFunctionComponent
        [.varDecl "const" [.mk (.id "DeleteButton")
          (some (.arrow [.objPat ["onClick"]] (.expr (.jsx (.mk "button"
            [.attr "onClick" (some (.container (.ident "onClick")))]
            [.textChild "X"] false)))))]]
        ⟨"DeleteButton", "function", "action-button", ["onClick"], none⟩
        "standard"
      = [.varDecl "const" [.mk (.id "DeleteButton")
          (some (.arrow [.objPat ["onClick"]] (.block
            [.varDecl "const"
              [.mk (.objPat ["ref", "aiProps"])
                (some (.call (.ident "useAIEnhanced")
                  [.strLit "DeleteButton",
                   .objLit
                     [.mk "purpose" (.strLit "action-button"),
                      .mk "interactions" (.arrLit [.strLit "click"])]]))],
             .ret (some (.jsx (.mk "button"
               [.attr "onClick" (some (.container (.ident "onClick"))),
                .attr "ref" (some (.container (.ident "ref"))),
                .spread (.ident "aiProps")]
               [.textChild "X"] false)))])))]]) := by
  have h := standardHookEnhancement
    ⟨"DeleteButton", "function", "action-button", ["onClick"], none⟩
    [.objPat ["onClick"]] "const" [] []
    "button" [.attr "onClick" (some (.container (.ident "onClick")))]
    [.textChild "X"] false (show "DeleteButton" ≠ "App" by decide) rfl rfl rfl
  exact h

/-- C10: the standard hook strategy checks nothing about prior enhancement.
On a component whose body already starts with the hook-call statement and
whose returned root element already carries `ref` and the `{...aiProps}`
spread, running the standard strategy again prepends a second hook-call
statement and appends a second `{...aiProps}` spread; only the `ref`
attribute is protected by its presence check.  The output therefore differs
from the input: the strategy is not idempotent on its own output. -/
theorem standardHookNotIdempotent (c : Component) (ps : List Pat)
    (k : String) (pre post : List Stmt) (tag : String)
    (attrs : List JSXAttr) (ch : List JSXChild) (sc : Bool)
    (hApp : c.name ≠ "App")
    (hPre : sfrSs pre = (pre, false))
    (hRef : hasRefAttr attrs = true)
    (hSp : 1 ≤ attrs.countP isAiPropsSpread)
    (hBody1 : ahSs c (hookCallStmt c :: pre ++
        .ret (some (.jsx (.mk tag attrs ch sc))) :: post)
      = (hookCallStmt c :: pre ++
          .ret (some (.jsx (.mk tag attrs ch sc))) :: post, false)) :
    (enhanceFunctionComponent
        [.funcDecl c.name ps (hookCallStmt c :: pre ++
          .ret (some (.jsx (.mk tag attrs ch sc))) :: post)] c "standard"
      = [.funcDecl c.name ps (hookCallStmt c :: hookCallStmt c :: pre ++
          .ret (some (.jsx (.mk tag (attrs ++ [aiPropsSpread]) ch sc)))
          :: post)]) ∧
    (enhanceFunctionComponent
        [.varDecl k [.mk (.id c.name) (some (.arrow ps (.block
          (hookCallStmt c :: pre ++
            .ret (some (.jsx (.mk tag attrs ch sc))) :: post))))]]
        c "standard"
      = [.varDecl k [.mk (.id c.name) (some (.arrow ps (.block
          (hookCallStmt c :: hookCallStmt c :: pre ++
            .ret (some (.jsx (.mk tag (attrs ++ [aiPropsSpread]) ch sc)))
            :: post))))]]) ∧
    ((attrs ++ [aiPropsSpread]).countP isAiPropsSpread
      = attrs.countP isAiPropsSpread + 1) ∧
    (2 ≤ (attrs ++ [aiPropsSpread]).countP isAiPropsSpread) ∧
    ((attrs ++ [aiPropsSpread]).countP isRefNamedAttr
      = attrs.countP isRefNamedAttr) ∧
    ([Stmt.funcDecl c.name ps (hookCallStmt c :: hookCallStmt c :: pre ++
        .ret (some (.jsx (.mk tag (attrs ++ [aiPropsSpread]) ch sc)))
        :: post)]
      ≠ [Stmt.funcDecl c.name ps (hookCallStmt c :: pre ++
          .ret (some (.jsx (.mk tag attrs ch sc))) :: post)]) := by
  have hbeq : (c.name == "App") = false := beq_eq_false_iff_ne.mpr hApp
  have hself : (c.name == c.name) = true := beq_self_eq_true c.name
  have hstd1 : (("standard" : String) == "basic") = false := by decide
  have hstd2 : (("standard" : String) == "advanced") = false := by decide
  have henh : enhanceJSXElement (.mk tag attrs ch sc)
      = .mk tag (attrs ++ [aiPropsSpread]) ch sc := by
    simp [enhanceJSXElement, hRef]
  have hs2 : sfrSs (hookCallStmt c :: pre ++
      .ret (some (.jsx (.mk tag attrs ch sc))) :: post)
      = (hookCallStmt c :: pre ++
          .ret (some (.jsx (.mk tag (attrs ++ [aiPropsSpread]) ch sc)))
          :: post, true) := by
    show sfrSs (hookCallStmt c ::
        (pre ++ .ret (some (.jsx (.mk tag attrs ch sc))) :: post))
      = (hookCallStmt c ::
          (pre ++ .ret (some (.jsx
            (.mk tag (attrs ++ [aiPropsSpread]) ch sc))) :: post), true)
    rw [sfrSs_cons_nosplice (hookCallStmt c)
        (pre ++ .ret (some (.jsx (.mk tag attrs ch sc))) :: post)
        (sfrS_hookCallStmt c),
      sfrSs_append pre _ hPre, sfrSs_cons_ret, henh]
  have hsplice2 : addHookToFunctionBody c (hookCallStmt c :: pre ++
      .ret (some (.jsx (.mk tag attrs ch sc))) :: post)
      = (hookCallStmt c :: hookCallStmt c :: pre ++
          .ret (some (.jsx (.mk tag (attrs ++ [aiPropsSpread]) ch sc)))
          :: post, true) := by
    show sfrSs (hookCallStmt c :: (hookCallStmt c ::
        (pre ++ .ret (some (.jsx (.mk tag attrs ch sc))) :: post)))
      = (hookCallStmt c :: (hookCallStmt c ::
          (pre ++ .ret (some (.jsx
            (.mk tag (attrs ++ [aiPropsSpread]) ch sc))) :: post)), true)
    rw [sfrSs_cons_nosplice (hookCallStmt c)
        (hookCallStmt c ::
          (pre ++ .ret (some (.jsx (.mk tag attrs ch sc))) :: post))
        (sfrS_hookCallStmt c)]
    rw [show sfrSs (hookCallStmt c ::
        (pre ++ .ret (some (.jsx (.mk tag attrs ch sc))) :: post))
      = (hookCallStmt c ::
          (pre ++ .ret (some (.jsx
            (.mk tag (attrs ++ [aiPropsSpread]) ch sc))) :: post), true)
      from hs2]
  refine ⟨?_, ?_, ?_, ?_, ?_, ?_⟩
  · have h1 : ahS c (.funcDecl c.name ps (hookCallStmt c :: pre ++
        .ret (some (.jsx (.mk tag attrs ch sc))) :: post)) =
        (.funcDecl c.name ps (hookCallStmt c :: hookCallStmt c :: pre ++
          .ret (some (.jsx (.mk tag (attrs ++ [aiPropsSpread]) ch sc)))
          :: post), true) := by
      simp only [ahS, hBody1, hself, if_true, hsplice2, Bool.false_or]
    have hAhProg : addAIEnhancedHook
        [Stmt.funcDecl c.name ps (hookCallStmt c :: pre ++
          .ret (some (.jsx (.mk tag attrs ch sc))) :: post)] c =
        [Stmt.funcDecl c.name ps (hookCallStmt c :: hookCallStmt c :: pre ++
          .ret (some (.jsx (.mk tag (attrs ++ [aiPropsSpread]) ch sc)))
          :: post)] := by
      unfold addAIEnhancedHook
      simp only [ahSs, h1]
      simp
    unfold enhanceFunctionComponent
    rw [if_neg (by simp [hbeq]), if_neg (by simp [hstd1]),
      if_neg (by simp [hstd2]), hAhProg]
  · have hblk : addHookToArrowBody c (.block (hookCallStmt c :: pre ++
        .ret (some (.jsx (.mk tag attrs ch sc))) :: post)) =
        (.block (hookCallStmt c :: hookCallStmt c :: pre ++
          .ret (some (.jsx (.mk tag (attrs ++ [aiPropsSpread]) ch sc)))
          :: post), true) := by
      have h0 := hsplice2
      unfold addHookToFunctionBody at h0
      simp only [addHookToArrowBody]
      rw [h0]
    have h1 : ahD c (.mk (.id c.name) (some (.arrow ps (.block
        (hookCallStmt c :: pre ++
          .ret (some (.jsx (.mk tag attrs ch sc))) :: post))))) =
        (.mk (.id c.name) (some (.arrow ps (.block
          (hookCallStmt c :: hookCallStmt c :: pre ++
            .ret (some (.jsx (.mk tag (attrs ++ [aiPropsSpread]) ch sc)))
            :: post)))), true) := by
      simp only [ahD, ahAB, hBody1, hself, if_true, hblk, Bool.false_or]
    have hAhProg : addAIEnhancedHook
        [Stmt.varDecl k [.mk (.id c.name) (some (.arrow ps (.block
          (hookCallStmt c :: pre ++
            .ret (some (.jsx (.mk tag attrs ch sc))) :: post))))]] c =
        [Stmt.varDecl k [.mk (.id c.name) (some (.arrow ps (.block
          (hookCallStmt c :: hookCallStmt c :: pre ++
            .ret (some (.jsx (.mk tag (attrs ++ [aiPropsSpread]) ch sc)))
            :: post))))]] := by
      unfold addAIEnhancedHook
      simp only [ahSs, ahS, ahDs, h1]
      simp
    unfold enhanceFunctionComponent
    rw [if_neg (by simp [hbeq]), if_neg (by simp [hstd1]),
      if_neg (by simp [hstd2]), hAhProg]
  · simp [List.countP_append, List.countP_cons, isAiPropsSpread,
      aiPropsSpread]
  · have : (attrs ++ [aiPropsSpread]).countP isAiPropsSpread
        = attrs.countP isAiPropsSpread + 1 := by
      simp [List.countP_append, List.countP_cons, isAiPropsSpread,
        aiPropsSpread]
    omega
  · simp [List.countP_append, List.countP_cons, isRefNamedAttr,
      aiPropsSpread]
  · intro heq
    simp only [List.cons.injEq, Stmt.funcDecl.injEq, and_true] at heq
    have hbody := heq.2.2
    have hlen := congrArg List.length hbody
    simp [List.length_append] at hlen

/-- C10 witness: re-running the standard strategy on its own `DeleteButton`
output duplicates the hook statement and the `{...aiProps}` spread. -/
theorem standardHookNotIdempotent_witness :
    (enhanceFunctionComponent
        [.funcDecl "DeleteButton" [.objPat ["onClick"]]
          [hookCallStmt
            ⟨"DeleteButton", "function", "action-button", ["onClick"], none⟩,
           .ret (some (.jsx (.mk "button"
             [.attr "onClick" (some (.container (.ident "onClick"))),
              .attr "ref" (some (.container (.ident "ref"))),
              .spread (.ident "aiProps")]
             [.textChild "X"] false)))]]
        ⟨"DeleteButton", "function", "action-button", ["onClick"], none⟩
        "standard"
      = [.funcDecl "DeleteButton" [.objPat ["onClick"]]
          [hookCallStmt
            ⟨"DeleteButton", "function", "action-button", ["onClick"], none⟩,
           hookCallStmt
            ⟨"DeleteButton", "function", "action-button", ["onClick"], none⟩,
           .ret (some (.jsx (.mk "button"
             [.attr "onClick" (some (.container (.ident "onClick"))),
              .attr "ref" (some (.container (.ident "ref"))),
              .spread (.ident "aiProps"),
              .spread (.ident "aiProps")]
             [.textChild "X"] false)))]]) ∧
    (enhanceFunctionComponent
        [.varDecl "const" [.mk (.id "DeleteButton")
          (some (.arrow [.objPat ["onClick"]] (.block
            [hookCallStmt
              ⟨"DeleteButton", "function", "action-button", ["onClick"], none⟩,
             .ret (some (.jsx (.mk "button"
               [.attr "onClick" (some (.container (.ident "onClick"))),
                .attr "ref" (some (.container (.ident "ref"))),
                .spread (.ident "aiProps")]
               [.textChild "X"] false)))])))]]
        ⟨"DeleteButton", "function", "action-button", ["onClick"], none⟩
        "standard"
      = [.varDecl "const" [.mk (.id "DeleteButton")
          (some (.arrow [.objPat ["onClick"]] (.block
            [hookCallStmt
              ⟨"DeleteButton", "function", "action-button", ["onClick"], none⟩,
             hookCallStmt
              ⟨"DeleteButton", "function", "action-button", ["onClick"], none⟩,
             .ret (some (.jsx (.mk "button"
               [.attr "onClick" (some (.container (.ident "onClick"))),
                .attr "ref" (some (.container (.ident "ref"))),
                .spread (.ident "aiProps"),
                .spread (.ident "aiProps")]
               [.textChild "X"] false)))])))]]) ∧
    ((([.attr "onClick" (some (.container (.ident "onClick"))),
        .attr "ref" (some (.container (.ident "ref"))),
        .spread (.ident "aiProps")] : List JSXAttr)
        ++ [aiPropsSpread]).countP isAiPropsSpread
      = ([.attr "onClick" (some (.container (.ident "onClick"))),
          .attr "ref" (some (.container (.ident "ref"))),
          .spread (.ident "aiProps")] : List JSXAttr).countP isAiPropsSpread
        + 1) ∧
    (2 ≤ (([.attr "onClick" (some (.container (.ident "onClick"))),
            .attr "ref" (some (.container (.ident "ref"))),
            .spread (.ident "aiProps")] : List JSXAttr)
          ++ [aiPropsSpread]).countP isAiPropsSpread) ∧
    ((([.attr "onClick" (some (.container (.ident "onClick"))),
        .attr "ref" (some (.container (.ident "ref"))),
        .spread (.ident "aiProps")] : List JSXAttr)
        ++ [aiPropsSpread]).countP isRefNamedAttr
      = ([.attr "onClick" (some (.container (.ident "onClick"))),
          .attr "ref" (some (.container (.ident "ref"))),
          .spread (.ident "aiProps")] : List JSXAttr).countP
          isRefNamedAttr) ∧
    ([Stmt.funcDecl "DeleteButton" [.objPat ["onClick"]]
        [hookCallStmt
          ⟨"DeleteButton", "function", "action-button", ["onClick"], none⟩,
         hookCallStmt
          ⟨"DeleteButton", "function", "action-button", ["onClick"], none⟩,
         .ret (some (.jsx (.mk "button"
           [.attr "onClick" (some (.container (.ident "onClick"))),
            .attr "ref" (some (.container (.ident "ref"))),
            .spread (.ident "aiProps"),
            .spread (.ident "aiProps")]
           [.textChild "X"] false)))]]
      ≠ [Stmt.funcDecl "DeleteButton" [.objPat ["onClick"]]
          [hookCallStmt
            ⟨"DeleteButton", "function", "action-button", ["onClick"], none⟩,
           .ret (some (.jsx (.mk "button"
             [.attr "onClick" (some (.container (.ident "onClick"))),
              .attr "ref" (some (.container (.ident "ref"))),
              .spread (.ident "aiProps")]
             [.textChild "X"] false)))]]) := by
  exact standardHookNotIdempotent
    ⟨"DeleteButton", "function", "action-button", ["onClick"], none⟩
    [.objPat ["onClick"]] "const" [] []
    "button"
    [.attr "onClick" (some (.container (.ident "onClick"))),
     .attr "ref" (some (.container (.ident "ref"))),
     .spread (.ident "aiProps")]
    [.textChild "X"] false
    (show "DeleteButton" ≠ "App" by decide) rfl rfl (by decide) rfl

/-! ### Lemmas about the App-component splice -/

/-- The App splice distributes over appended statement lists (it has no
first-match cutoff). -/
theorem abdAppSs_append (xs ys : List Stmt) :
    abdAppSs (xs ++ ys) =
      ((abdAppSs xs).1 ++ (abdAppSs ys).1,
       (abdAppSs xs).2 || (abdAppSs ys).2) := by
  induction xs with
  | nil => simp [abdAppSs]
  | cons x t ih => simp [abdAppSs, ih, Bool.or_assoc]

/-- C8: a component named `App` is dispatched, at every enhancement level,
to `addBasicDirectivesToAppComponent`; that splice adds exactly the three
marker attributes with purpose hard-coded to `application-root` and
component name hard-coded to `App` onto the returned root element when the
marker is absent, inserts no hook-call statement, and leaves the code
untouched when the marker is already present. -/
theorem appComponentEnhancement (c : Component) (n : String) (ps : List Pat)
    (pre post : List Stmt) (tag : String) (attrs : List JSXAttr)
    (ch : List JSXChild) (sc : Bool)
    (hA : c.name = "App")
    (hPre : abdAppSs pre = (pre, false))
    (hPost : abdAppSs post = (post, false))
    (hAttrs : abdAppAs attrs = (attrs, false))
    (hCh : abdAppChs ch = (ch, false)) :
    (∀ (code : List Stmt) (level : String),
      enhanceFunctionComponent code c level =
        addBasicDirectivesToAppComponent code c) ∧
    (hasAartisanAttributes attrs = false →
      addBasicDirectivesToAppComponent
        [.funcDecl n ps
          (pre ++ .ret (some (.jsx (.mk tag attrs ch sc))) :: post)] c =
        [.funcDecl n ps
          (pre ++ .ret (some (.jsx (.mk tag
            (attrs ++
              [.attr "data-aartisan" (some (.lit "true")),
               .attr "data-aartisan-purpose" (some (.lit "application-root")),
               .attr "data-aartisan-component" (some (.lit "App"))])
            ch sc))) :: post)]) ∧
    (hasAartisanAttributes attrs = true →
      addBasicDirectivesToAppComponent
        [.funcDecl n ps
          (pre ++ .ret (some (.jsx (.mk tag attrs ch sc))) :: post)] c =
        [.funcDecl n ps
          (pre ++ .ret (some (.jsx (.mk tag attrs ch sc))) :: post)]) := by
  refine ⟨?_, ?_, ?_⟩
  · intro code level
    unfold enhanceFunctionComponent
    rw [if_pos (by simp [hA])]
  · intro hM
    have hret : abdAppSs
        (.ret (some (.jsx (.mk tag attrs ch sc))) :: post) =
        (.ret (some (.jsx (.mk tag (attrs ++ appMarkers) ch sc))) :: post,
         true) := by
      simp [abdAppSs, abdAppS, abdAppElemRet, hM, hAttrs, hCh, hPost]
    have hbody : abdAppSs
        (pre ++ .ret (some (.jsx (.mk tag attrs ch sc))) :: post) =
        (pre ++ .ret (some (.jsx (.mk tag (attrs ++ appMarkers) ch sc)))
          :: post, true) := by
      rw [abdAppSs_append, hPre, hret]
      rfl
    unfold addBasicDirectivesToAppComponent
    simp only [abdAppSs, abdAppS, hbody]
    simp [appMarkers]
  · intro hM
    have hret : abdAppSs
        (.ret (some (.jsx (.mk tag attrs ch sc))) :: post) =
        (.ret (some (.jsx (.mk tag attrs ch sc))) :: post, false) := by
      simp [abdAppSs, abdAppS, abdAppElemRet, hM, hAttrs, hCh, hPost]
    have hbody : abdAppSs
        (pre ++ .ret (some (.jsx (.mk tag attrs ch sc))) :: post) =
        (pre ++ .ret (some (.jsx (.mk tag attrs ch sc))) :: post, false) := by
      rw [abdAppSs_append, hPre, hret]
      rfl
    unfold addBasicDirectivesToAppComponent
    simp only [abdAppSs, abdAppS, hbody]
    simp

/-- C8 witness: an `App` component at the `standard` level, unmarked and
marked. -/
theorem appComponentEnhancement_witness :
    (enhanceFunctionComponent
        [.funcDecl "App" []
          [.ret (some (.jsx (.mk "div" [] [.textChild "hi"] false)))]]
        ⟨"App", "function", "ui-component", [], none⟩ "standard" =
      addBasicDirectivesToAppComponent
        [.funcDecl "App" []
          [.ret (some (.jsx (.mk "div" [] [.textChild "hi"] false)))]]
        ⟨"App", "function", "ui-component", [], none⟩) ∧
    (addBasicDirectivesToAppComponent
        [.funcDecl "App" []
          [.ret (some (.jsx (.mk "div" [] [.textChild "hi"] false)))]]
        ⟨"App", "function", "ui-component", [], none⟩ =
      [.funcDecl "App" []
        [.ret (some (.jsx (.mk "div"
          [.attr "data-aartisan" (some (.lit "true")),
           .attr "data-aartisan-purpose" (some (.lit "application-root")),
           .attr "data-aartisan-component" (some (.lit "App"))]
          [.textChild "hi"] false)))]]) ∧
    (addBasicDirectivesToAppComponent
        [.funcDecl "App" []
          [.ret (some (.jsx (.mk "div"
            [.attr "data-aartisan" (some (.lit "true"))] [.textChild "hi"]
            false)))]]
        ⟨"App", "function", "ui-component", [], none⟩ =
      [.funcDecl "App" []
        [.ret (some (.jsx (.mk "div"
          [.attr "data-aartisan" (some (.lit "true"))] [.textChild "hi"]
          false)))]]) := by
  refine ⟨?_, ?_, ?_⟩
  · exact (appComponentEnhancement
      ⟨"App", "function", "ui-component", [], none⟩ "App" [] [] []
      "div" [] [.textChild "hi"] false rfl rfl rfl rfl rfl).1
      [.funcDecl "App" []
        [.ret (some (.jsx (.mk "div" [] [.textChild "hi"] false)))]]
      "standard"
  · exact (appComponentEnhancement
      ⟨"App", "function", "ui-component", [], none⟩ "App" [] [] []
      "div" [] [.textChild "hi"] false rfl rfl rfl rfl rfl).2.1 rfl
  · exact (appComponentEnhancement
      ⟨"App", "function", "ui-component", [], none⟩ "App" [] [] []
      "div" [.attr "data-aartisan" (some (.lit "true"))] [.textChild "hi"]
      false rfl rfl rfl rfl rfl).2.2 rfl

/-! ### Stability of `addBasicDirectives`

A second run of the basic-directive traversal changes nothing and reports
`modified = false`: every root element it produced already carries the
`data-aartisan` marker, and the traversal preserves attribute names.  This
is the content behind the idempotence contract. -/

/-- The traversal of attribute values preserves the marker test (it never
renames an attribute). -/
theorem isMarkerAttr_abdA (c : Component) (a : JSXAttr) :
    isMarkerAttr (abdA c a).1 = isMarkerAttr a := by
  cases a with
  | attr n v =>
    cases v with
    | none => rfl
    | some av =>
      cases av with
      | lit s => rfl
      | container e => simp [abdA, isMarkerAttr]
  | spread e => simp [abdA, isMarkerAttr]

/-- The attribute-list traversal preserves `hasAartisanAttributes`. -/
theorem hasMarker_abdAs (c : Component) (attrs : List JSXAttr) :
    hasAartisanAttributes (abdAs c attrs).1 = hasAartisanAttributes attrs := by
  induction attrs with
  | nil => rfl
  | cons a t ih =>
    simp [abdAs, hasAartisanAttributes, isMarkerAttr_abdA c a]
    simp [hasAartisanAttributes] at ih
    rw [ih]

/-- The attribute-list traversal distributes over appends. -/
theorem abdAs_append (c : Component) (xs ys : List JSXAttr) :
    abdAs c (xs ++ ys) =
      ((abdAs c xs).1 ++ (abdAs c ys).1, (abdAs c xs).2 || (abdAs c ys).2) := by
  induction xs with
  | nil => simp [abdAs]
  | cons x t ih => simp [abdAs, ih, Bool.or_assoc]

/-- The three markers are plain string attributes: the traversal passes
over them unchanged. -/
theorem abdAs_markers (c : Component) :
    abdAs c (aartisanMarkers c) = (aartisanMarkers c, false) := by
  simp [aartisanMarkers, abdAs, abdA]

/-- Appending the markers makes the marker test succeed. -/
theorem hasMarker_append_markers (c : Component) (xs : List JSXAttr) :
    hasAartisanAttributes (xs ++ aartisanMarkers c) = true := by
  simp [hasAartisanAttributes, aartisanMarkers, isMarkerAttr]

/-- The arrow case of the expression traversal, as one equation through
`abdArrowBody`. -/
theorem abdE_arrow (c : Component) (ps2 : List Pat) (b : ArrowBody) :
    abdE c (.arrow ps2 b) =
      (.arrow ps2 (abdArrowBody c b).1, (abdArrowBody c b).2) := by
  cases b with
  | block ss => rfl
  | expr e3 => cases e3 <;> rfl

/-- Extracting stability of the arrow-body action from stability of the
whole arrow expression, by injectivity of the `arrow` constructor. -/
theorem arrowBody_stable (c : Component) (ps2 : List Pat) (b : ArrowBody)
    (h : (Expr.arrow ps2 (abdArrowBody c (abdArrowBody c b).1).1,
          (abdArrowBody c (abdArrowBody c b).1).2) =
         (Expr.arrow ps2 (abdArrowBody c b).1, false)) :
    abdArrowBody c (abdArrowBody c b).1 = ((abdArrowBody c b).1, false) := by
  have h1 := congrArg Prod.fst h
  have h2 := congrArg Prod.snd h
  simp only [Expr.arrow.injEq, true_and] at h1
  simp only at h2
  exact Prod.ext_iff.mpr ⟨h1, h2⟩

/-- The same extraction, starting from the raw double-traversal equation. -/
theorem arrowBody_stable2 (c : Component) (ps2 : List Pat) (b : ArrowBody)
    (h : abdE c (abdE c (.arrow ps2 b)).1 = ((abdE c (.arrow ps2 b)).1, false)) :
    abdArrowBody c (abdArrowBody c b).1 = ((abdArrowBody c b).1, false) := by
  rw [abdE_arrow] at h
  dsimp only at h
  rw [abdE_arrow] at h
  exact arrowBody_stable c ps2 b h

set_option maxHeartbeats 1600000

/-- Stability of the statement traversal on a return of a bare arrow
function, from stability of the arrow expression. -/
theorem abdS_st_retArrow (c : Component) (ps2 : List Pat) (b : ArrowBody)
    (h : abdE c (abdE c (.arrow ps2 b)).1 = ((abdE c (.arrow ps2 b)).1, false)) :
    abdS c (abdS c (.ret (some (.arrow ps2 b)))).1 =
      ((abdS c (.ret (some (.arrow ps2 b)))).1, false) := by
  have hb := arrowBody_stable2 c ps2 b h
  have e1 : abdS c (.ret (some (.arrow ps2 b))) =
      (.ret (some (abdE c (.arrow ps2 b)).1), (abdE c (.arrow ps2 b)).2) := rfl
  rw [e1, abdE_arrow]
  dsimp only
  have e2 : abdS c (.ret (some (Expr.arrow ps2 (abdArrowBody c b).1))) =
      (.ret (some (abdE c (.arrow ps2 (abdArrowBody c b).1)).1),
       (abdE c (.arrow ps2 (abdArrowBody c b).1)).2) := rfl
  rw [e2, abdE_arrow, hb]

/-- Stability of the statement traversal on a return of an expression
container holding an arrow function. -/
theorem abdS_st_retContArrow (c : Component) (ps2 : List Pat) (b : ArrowBody)
    (h : abdE c (abdE c (.arrow ps2 b)).1 = ((abdE c (.arrow ps2 b)).1, false)) :
    abdS c (abdS c (.ret (some (.jsxContainer (.arrow ps2 b))))).1 =
      ((abdS c (.ret (some (.jsxContainer (.arrow ps2 b))))).1, false) := by
  have hb := arrowBody_stable2 c ps2 b h
  have e1 : abdS c (.ret (some (.jsxContainer (.arrow ps2 b)))) =
      (.ret (some (.jsxContainer (abdE c (.arrow ps2 b)).1)),
       (abdE c (.arrow ps2 b)).2) := rfl
  rw [e1, abdE_arrow]
  dsimp only
  have e2 : abdS c
      (.ret (some (.jsxContainer (Expr.arrow ps2 (abdArrowBody c b).1)))) =
      (.ret (some (.jsxContainer
        (abdE c (.arrow ps2 (abdArrowBody c b).1)).1)),
       (abdE c (.arrow ps2 (abdArrowBody c b).1)).2) := rfl
  rw [e2, abdE_arrow, hb]

/-- Stability of the expression traversal on an arrow whose bare body is
itself an arrow function. -/
theorem abdE_st_arrowExprArrow (c : Component) (ps2 ps3 : List Pat)
    (b3 : ArrowBody)
    (h : abdE c (abdE c (.arrow ps3 b3)).1 = ((abdE c (.arrow ps3 b3)).1, false)) :
    abdE c (abdE c (.arrow ps2 (.expr (.arrow ps3 b3)))).1 =
      ((abdE c (.arrow ps2 (.expr (.arrow ps3 b3)))).1, false) := by
  have hb := arrowBody_stable2 c ps3 b3 h
  have e1 : abdE c (.arrow ps2 (.expr (.arrow ps3 b3))) =
      (.arrow ps2 (.expr (abdE c (.arrow ps3 b3)).1),
       (abdE c (.arrow ps3 b3)).2) := rfl
  rw [e1, abdE_arrow c ps3 b3]
  dsimp only
  have e2 : abdE c (.arrow ps2 (.expr (Expr.arrow ps3 (abdArrowBody c b3).1))) =
      (.arrow ps2 (.expr (abdE c (.arrow ps3 (abdArrowBody c b3).1)).1),
       (abdE c (.arrow ps3 (abdArrowBody c b3).1)).2) := rfl
  rw [e2, abdE_arrow c ps3 (abdArrowBody c b3).1, hb]

/-- Stability of the expression traversal on an arrow whose bare body is
an expression container. -/
theorem abdE_st_arrowExprCont (c : Component) (ps2 : List Pat) (e4 : Expr)
    (h : abdE c (abdE c (.jsxContainer e4)).1 = ((abdE c (.jsxContainer e4)).1, false)) :
    abdE c (abdE c (.arrow ps2 (.expr (.jsxContainer e4)))).1 =
      ((abdE c (.arrow ps2 (.expr (.jsxContainer e4)))).1, false) := by
  have hc : abdE c (.jsxContainer e4) =
      (.jsxContainer (abdE c e4).1, (abdE c e4).2) := rfl
  rw [hc] at h
  dsimp only at h
  have e1 : abdE c (.arrow ps2 (.expr (.jsxContainer e4))) =
      (.arrow ps2 (.expr (.jsxContainer (abdE c e4).1)), (abdE c e4).2) := rfl
  rw [e1]
  dsimp only
  have e2 : abdE c (.arrow ps2 (.expr (Expr.jsxContainer (abdE c e4).1))) =
      (.arrow ps2 (.expr (abdE c (.jsxContainer (abdE c e4).1)).1),
       (abdE c (.jsxContainer (abdE c e4).1)).2) := rfl
  rw [e2, h]

/-- Stability of the statement traversal on a return of a doubly nested
expression container. -/
theorem abdS_st_retContCont (c : Component) (e3 : Expr)
    (h : abdE c (abdE c e3).1 = ((abdE c e3).1, false)) :
    abdS c (abdS c (.ret (some (.jsxContainer (.jsxContainer e3))))).1 =
      ((abdS c (.ret (some (.jsxContainer (.jsxContainer e3))))).1, false) := by
  have e1 : abdS c (.ret (some (.jsxContainer (.jsxContainer e3)))) =
      (.ret (some (.jsxContainer (.jsxContainer (abdE c e3).1))),
       (abdE c e3).2) := rfl
  rw [e1]
  dsimp only
  have e2 : abdS c
      (.ret (some (.jsxContainer (Expr.jsxContainer (abdE c e3).1)))) =
      (.ret (some (.jsxContainer (.jsxContainer (abdE c (abdE c e3).1).1))),
       (abdE c (abdE c e3).1).2) := rfl
  rw [e2, h]

mutual
theorem abdS_st (c : Component) : ∀ s : Stmt,
    abdS c (abdS c s).1 = ((abdS c s).1, false)
  | .funcDecl n ps body => by
    have h := abdSs_st c body
    simp [abdS, h]
  | .varDecl k ds => by
    have h := abdDs_st c ds
    simp [abdS, h]
  | .exprStmt e => by
    have h := abdE_st c e
    simp [abdS, h]
  | .classDecl n sc2 ms => by
    have h1 := abdOE_st c sc2
    have h2 := abdMs_st c ms
    simp [abdS, h1, h2]
  | .otherStmt => by simp [abdS]
  | .ret none => by simp [abdS]
  | .ret (some e) => by
    cases e with
    | jsx el =>
      have h := abdElemR_st c el
      simp [abdS, h]
    | jsxContainer e2 =>
      cases e2 with
      | jsx el =>
        have h := abdElemR_st c el
        simp [abdS, h]
      | ident nm => simp [abdS, abdE]
      | strLit s2 => simp [abdS, abdE]
      | arrLit es =>
        have h := abdEs_st c es
        simp [abdS, abdE, h]
      | objLit fs =>
        have h := abdFs_st c fs
        simp [abdS, abdE, h]
      | call f as =>
        have h1 := abdE_st c f
        have h2 := abdEs_st c as
        simp [abdS, abdE, h1, h2]
      | member o p =>
        have h := abdE_st c o
        simp [abdS, abdE, h]
      | arrow ps2 b =>
        exact abdS_st_retContArrow c ps2 b (abdE_st c (.arrow ps2 b))
      | jsxContainer e3 =>
        exact abdS_st_retContCont c e3 (abdE_st c e3)
      | otherExpr => simp [abdS, abdE]
    | ident nm => simp [abdS, abdE]
    | strLit s2 => simp [abdS, abdE]
    | arrLit es =>
      have h := abdEs_st c es
      simp [abdS, abdE, h]
    | objLit fs =>
      have h := abdFs_st c fs
      simp [abdS, abdE, h]
    | call f as =>
      have h1 := abdE_st c f
      have h2 := abdEs_st c as
      simp [abdS, abdE, h1, h2]
    | member o p =>
      have h := abdE_st c o
      simp [abdS, abdE, h]
    | arrow ps2 b =>
      exact abdS_st_retArrow c ps2 b (abdE_st c (.arrow ps2 b))
    | otherExpr => simp [abdS, abdE]
termination_by x => sizeOf x

theorem abdSs_st (c : Component) : ∀ ss : List Stmt,
    abdSs c (abdSs c ss).1 = ((abdSs c ss).1, false)
  | [] => by simp [abdSs]
  | s :: rest => by
    have h1 := abdS_st c s
    have h2 := abdSs_st c rest
    simp [abdSs, h1, h2]
termination_by x => sizeOf x

theorem abdE_st (c : Component) : ∀ e : Expr,
    abdE c (abdE c e).1 = ((abdE c e).1, false)
  | .ident n => by simp [abdE]
  | .strLit s => by simp [abdE]
  | .arrLit es => by
    have h := abdEs_st c es
    simp [abdE, h]
  | .objLit fs => by
    have h := abdFs_st c fs
    simp [abdE, h]
  | .call f as => by
    have h1 := abdE_st c f
    have h2 := abdEs_st c as
    simp [abdE, h1, h2]
  | .member o p => by
    have h := abdE_st c o
    simp [abdE, h]
  | .jsx el => by
    have h := abdElemN_st c el
    simp [abdE, h]
  | .jsxContainer e => by
    have h := abdE_st c e
    simp [abdE, h]
  | .otherExpr => by simp [abdE]
  | .arrow ps2 (.block ss) => by
    have h := abdSs_st c ss
    simp [abdE, h]
  | .arrow ps2 (.expr e3) => by
    cases e3 with
    | jsx el =>
      have h := abdElemR_st c el
      simp [abdE, h]
    | ident nm => simp [abdE]
    | strLit s2 => simp [abdE]
    | arrLit es =>
      have h := abdEs_st c es
      simp [abdE, h]
    | objLit fs =>
      have h := abdFs_st c fs
      simp [abdE, h]
    | call f as =>
      have h1 := abdE_st c f
      have h2 := abdEs_st c as
      simp [abdE, h1, h2]
    | member o p =>
      have h := abdE_st c o
      simp [abdE, h]
    | arrow ps3 b3 =>
      exact abdE_st_arrowExprArrow c ps2 ps3 b3 (abdE_st c (.arrow ps3 b3))
    | jsxContainer e4 =>
      exact abdE_st_arrowExprCont c ps2 e4 (abdE_st c (.jsxContainer e4))
    | otherExpr => simp [abdE]
termination_by x => sizeOf x

theorem abdEs_st (c : Component) : ∀ es : List Expr,
    abdEs c (abdEs c es).1 = ((abdEs c es).1, false)
  | [] => by simp [abdEs]
  | e :: rest => by
    have h1 := abdE_st c e
    have h2 := abdEs_st c rest
    simp [abdEs, h1, h2]
termination_by x => sizeOf x

theorem abdOE_st (c : Component) : ∀ oe : Option Expr,
    abdOE c (abdOE c oe).1 = ((abdOE c oe).1, false)
  | none => by simp [abdOE]
  | some e => by
    have h := abdE_st c e
    simp [abdOE, h]
termination_by x => sizeOf x

theorem abdElemR_st (c : Component) : ∀ el : JSXElem,
    abdElemR c (abdElemR c el).1 = ((abdElemR c el).1, false)
  | .mk tag attrs ch sc => by
    have hA := abdAs_st c attrs
    have hC := abdChs_st c ch
    cases hM : hasAartisanAttributes attrs with
    | false =>
      simp [abdElemR, hM, hasMarker_append_markers, abdAs_append,
        abdAs_markers, hA, hC]
    | true =>
      simp [abdElemR, hM, hasMarker_abdAs, hA, hC]
termination_by x => sizeOf x

theorem abdElemN_st (c : Component) : ∀ el : JSXElem,
    abdElemN c (abdElemN c el).1 = ((abdElemN c el).1, false)
  | .mk tag attrs ch sc => by
    have hA := abdAs_st c attrs
    have hC := abdChs_st c ch
    simp [abdElemN, hA, hC]
termination_by x => sizeOf x

theorem abdA_st (c : Component) : ∀ a : JSXAttr,
    abdA c (abdA c a).1 = ((abdA c a).1, false)
  | .attr n none => by simp [abdA]
  | .attr n (some (.lit s)) => by simp [abdA]
  | .attr n (some (.container e)) => by
    have h := abdE_st c e
    simp [abdA, h]
  | .spread e => by
    have h := abdE_st c e
    simp [abdA, h]
termination_by x => sizeOf x

theorem abdAs_st (c : Component) : ∀ attrs : List JSXAttr,
    abdAs c (abdAs c attrs).1 = ((abdAs c attrs).1, false)
  | [] => by simp [abdAs]
  | a :: rest => by
    have h1 := abdA_st c a
    have h2 := abdAs_st c rest
    simp [abdAs, h1, h2]
termination_by x => sizeOf x

theorem abdCh_st (c : Component) : ∀ chd : JSXChild,
    abdCh c (abdCh c chd).1 = ((abdCh c chd).1, false)
  | .elem el => by
    have h := abdElemN_st c el
    simp [abdCh, h]
  | .exprChild e => by
    have h := abdE_st c e
    simp [abdCh, h]
  | .textChild s => by simp [abdCh]
termination_by x => sizeOf x

theorem abdChs_st (c : Component) : ∀ chs : List JSXChild,
    abdChs c (abdChs c chs).1 = ((abdChs c chs).1, false)
  | [] => by simp [abdChs]
  | chd :: rest => by
    have h1 := abdCh_st c chd
    have h2 := abdChs_st c rest
    simp [abdChs, h1, h2]
termination_by x => sizeOf x

theorem abdD_st (c : Component) : ∀ d : VarDtor,
    abdD c (abdD c d).1 = ((abdD c d).1, false)
  | .mk pat init => by
    have h := abdOE_st c init
    simp [abdD, h]
termination_by x => sizeOf x

theorem abdDs_st (c : Component) : ∀ ds : List VarDtor,
    abdDs c (abdDs c ds).1 = ((abdDs c ds).1, false)
  | [] => by simp [abdDs]
  | d :: rest => by
    have h1 := abdD_st c d
    have h2 := abdDs_st c rest
    simp [abdDs, h1, h2]
termination_by x => sizeOf x

theorem abdF_st (c : Component) : ∀ fd : ObjField,
    abdF c (abdF c fd).1 = ((abdF c fd).1, false)
  | .mk k v => by
    have h := abdE_st c v
    simp [abdF, h]
termination_by x => sizeOf x

theorem abdFs_st (c : Component) : ∀ fs : List ObjField,
    abdFs c (abdFs c fs).1 = ((abdFs c fs).1, false)
  | [] => by simp [abdFs]
  | fd :: rest => by
    have h1 := abdF_st c fd
    have h2 := abdFs_st c rest
    simp [abdFs, h1, h2]
termination_by x => sizeOf x

theorem abdM_st (c : Component) : ∀ m : ClassMethod,
    abdM c (abdM c m).1 = ((abdM c m).1, false)
  | .mk k b => by
    have h := abdSs_st c b
    simp [abdM, h]
termination_by x => sizeOf x

theorem abdMs_st (c : Component) : ∀ ms : List ClassMethod,
    abdMs c (abdMs c ms).1 = ((abdMs c ms).1, false)
  | [] => by simp [abdMs]
  | m :: rest => by
    have h1 := abdM_st c m
    have h2 := abdMs_st c rest
    simp [abdMs, h1, h2]
termination_by x => sizeOf x

end

/-- C2: running `addBasicDirectives` a second time on its own output is a
no-op producing identical output.  First conjunct: the basic strategy is
idempotent on every program.  Second conjunct: the marker check — on a root
element whose opening attributes already contain `data-aartisan`, the root
handler coincides with the neutral traversal, so no marker attributes are
added.  Third conjunct: when the traversal reports no mutation
(`modified = false`), the input code is returned unchanged. -/
theorem basicDirectivesIdempotent :
    (∀ (code : List Stmt) (c : Component),
      addBasicDirectives (addBasicDirectives code c) c =
        addBasicDirectives code c) ∧
    (∀ (c : Component) (tag : String) (attrs : List JSXAttr)
      (ch : List JSXChild) (sc : Bool),
      hasAartisanAttributes attrs = true →
      abdElemR c (.mk tag attrs ch sc) = abdElemN c (.mk tag attrs ch sc)) ∧
    (∀ (code : List Stmt) (c : Component),
      (abdSs c code).2 = false → addBasicDirectives code c = code) := by
  refine ⟨?_, ?_, ?_⟩
  · intro code c
    unfold addBasicDirectives
    cases hm : (abdSs c code).2 with
    | false => simp [hm]
    | true => simp [hm, abdSs_st c code]
  · intro c tag attrs ch sc hM
    simp [abdElemR, abdElemN, hM]
  · intro code c hm
    unfold addBasicDirectives
    simp [hm]

theorem basicDirectivesIdempotent_witness :
    (addBasicDirectives
        (addBasicDirectives
          [.funcDecl "Card" []
            [.ret (some (.jsx (.mk "div" [] [.textChild "hi"] false)))]]
          ⟨"Card", "function", "display-card", ["onClick"], none⟩)
        ⟨"Card", "function", "display-card", ["onClick"], none⟩ =
      addBasicDirectives
        [.funcDecl "Card" []
          [.ret (some (.jsx (.mk "div" [] [.textChild "hi"] false)))]]
        ⟨"Card", "function", "display-card", ["onClick"], none⟩) ∧
    (hasAartisanAttributes
        [.attr "data-aartisan" (some (.lit "true"))] = true ∧
      abdElemR ⟨"Card", "function", "display-card", ["onClick"], none⟩
          (.mk "div" [.attr "data-aartisan" (some (.lit "true"))]
            [.textChild "hi"] false) =
        abdElemN ⟨"Card", "function", "display-card", ["onClick"], none⟩
          (.mk "div" [.attr "data-aartisan" (some (.lit "true"))]
            [.textChild "hi"] false)) ∧
    ((abdSs ⟨"Card", "function", "display-card", ["onClick"], none⟩
        [.ret (some (.jsx (.mk "div"
          [.attr "data-aartisan" (some (.lit "true"))] [] false)))]).2 =
        false ∧
      addBasicDirectives
        [.ret (some (.jsx (.mk "div"
          [.attr "data-aartisan" (some (.lit "true"))] [] false)))]
        ⟨"Card", "function", "display-card", ["onClick"], none⟩ =
      [.ret (some (.jsx (.mk "div"
        [.attr "data-aartisan" (some (.lit "true"))] [] false)))]) :=
  ⟨basicDirectivesIdempotent.1
      [.funcDecl "Card" []
        [.ret (some (.jsx (.mk "div" [] [.textChild "hi"] false)))]]
      ⟨"Card", "function", "display-card", ["onClick"], none⟩,
   ⟨by decide,
    basicDirectivesIdempotent.2.1
      ⟨"Card", "function", "display-card", ["onClick"], none⟩ "div"
      [.attr "data-aartisan" (some (.lit "true"))] [.textChild "hi"] false
      (by decide)⟩,
   ⟨by decide,
    basicDirectivesIdempotent.2.2
      [.ret (some (.jsx (.mk "div"
        [.attr "data-aartisan" (some (.lit "true"))] [] false)))]
      ⟨"Card", "function", "display-card", ["onClick"], none⟩
      (by decide)⟩⟩

/-! ### No-double-wrap for the render-root traversals -/

/-- Once `rootElementFound` is set, a statement-list visit is the
identity. -/
theorem wtSs_true (h : CallHandler) (ss : List Stmt) :
    wtSs h true ss = (ss, true) := by
  induction ss with
  | nil => simp [wtSs]
  | cons s rest ih => simp [wtSs, wtS, ih]

/-- The statement-list traversal distributes over appends, threading the
found flag. -/
theorem wtSs_append (h : CallHandler) (f : Bool) (xs ys : List Stmt) :
    wtSs h f (xs ++ ys) =
      ((wtSs h f xs).1 ++ (wtSs h (wtSs h f xs).2 ys).1,
       (wtSs h (wtSs h f xs).2 ys).2) := by
  induction xs generalizing f with
  | nil => simp [wtSs]
  | cons x t ih => simp [wtSs, ih]

mutual

theorem wtS_noop (h : CallHandler) : ∀ s : Stmt, callFreeS s = true →
    wtS h false s = (s, false)
  | .funcDecl n ps body => fun hc => by
    have h1 := wtSs_noop h body (by simpa [callFreeS] using hc)
    simp [wtS, h1]
  | .varDecl k ds => fun hc => by
    have h1 := wtDs_noop h ds (by simpa [callFreeS] using hc)
    simp [wtS, h1]
  | .ret arg => fun hc => by
    have h1 := wtOE_noop h arg (by simpa [callFreeS] using hc)
    simp [wtS, h1]
  | .exprStmt e => fun hc => by
    have h1 := wtE_noop h e (by simpa [callFreeS] using hc)
    simp [wtS, h1]
  | .classDecl n sc ms => fun hc => by
    have hc2 : callFreeOE sc = true ∧ callFreeMs ms = true := by
      simpa [callFreeS, Bool.and_eq_true] using hc
    have h1 := wtOE_noop h sc hc2.1
    have h2 := wtMs_noop h ms hc2.2
    simp [wtS, h1, h2]
  | .otherStmt => fun _ => by simp [wtS]
termination_by x => sizeOf x

theorem wtSs_noop (h : CallHandler) : ∀ ss : List Stmt,
    callFreeSs ss = true → wtSs h false ss = (ss, false)
  | [] => fun _ => by simp [wtSs]
  | s :: rest => fun hc => by
    have hc2 : callFreeS s = true ∧ callFreeSs rest = true := by
      simpa [callFreeSs, Bool.and_eq_true] using hc
    have h1 := wtS_noop h s hc2.1
    have h2 := wtSs_noop h rest hc2.2
    simp [wtSs, h1, h2]
termination_by x => sizeOf x

theorem wtE_noop (h : CallHandler) : ∀ e : Expr, callFreeE e = true →
    wtE h false e = (e, false)
  | .ident n => fun _ => by simp [wtE]
  | .strLit s2 => fun _ => by simp [wtE]
  | .arrLit es => fun hc => by
    have h1 := wtEs_noop h es (by simpa [callFreeE] using hc)
    simp [wtE, h1]
  | .objLit fs => fun hc => by
    have h1 := wtFs_noop h fs (by simpa [callFreeE] using hc)
    simp [wtE, h1]
  | .call f as => fun hc => by simp [callFreeE] at hc
  | .member o p => fun hc => by
    have h1 := wtE_noop h o (by simpa [callFreeE] using hc)
    simp [wtE, h1]
  | .arrow ps b => fun hc => by
    have h1 := wtAB_noop h b (by simpa [callFreeE] using hc)
    simp [wtE, h1]
  | .jsx el => fun hc => by
    have h1 := wtElem_noop h el (by simpa [callFreeE] using hc)
    simp [wtE, h1]
  | .jsxContainer e => fun hc => by
    have h1 := wtE_noop h e (by simpa [callFreeE] using hc)
    simp [wtE, h1]
  | .otherExpr => fun _ => by simp [wtE]
termination_by x => sizeOf x

theorem wtEs_noop (h : CallHandler) : ∀ es : List Expr,
    callFreeEs es = true → wtEs h false es = (es, false)
  | [] => fun _ => by simp [wtEs]
  | e :: rest => fun hc => by
    have hc2 : callFreeE e = true ∧ callFreeEs rest = true := by
      simpa [callFreeEs, Bool.and_eq_true] using hc
    have h1 := wtE_noop h e hc2.1
    have h2 := wtEs_noop h rest hc2.2
    simp [wtEs, h1, h2]
termination_by x => sizeOf x

theorem wtOE_noop (h : CallHandler) : ∀ oe : Option Expr,
    callFreeOE oe = true → wtOE h false oe = (oe, false)
  | none => fun _ => by simp [wtOE]
  | some e => fun hc => by
    have h1 := wtE_noop h e (by simpa [callFreeOE] using hc)
    simp [wtOE, h1]
termination_by x => sizeOf x

theorem wtAB_noop (h : CallHandler) : ∀ b : ArrowBody,
    callFreeAB b = true → wtAB h false b = (b, false)
  | .block ss => fun hc => by
    have h1 := wtSs_noop h ss (by simpa [callFreeAB] using hc)
    simp [wtAB, h1]
  | .expr e => fun hc => by
    have h1 := wtE_noop h e (by simpa [callFreeAB] using hc)
    simp [wtAB, h1]
termination_by x => sizeOf x

theorem wtElem_noop (h : CallHandler) : ∀ el : JSXElem,
    callFreeElem el = true → wtElem h false el = (el, false)
  | .mk tag attrs children sc => fun hc => by
    have hc2 : callFreeAs attrs = true ∧ callFreeChs children = true := by
      simpa [callFreeElem, Bool.and_eq_true] using hc
    have h1 := wtAs_noop h attrs hc2.1
    have h2 := wtChs_noop h children hc2.2
    simp [wtElem, h1, h2]
termination_by x => sizeOf x

theorem wtA_noop (h : CallHandler) : ∀ a : JSXAttr,
    callFreeA a = true → wtA h false a = (a, false)
  | .attr n none => fun _ => by simp [wtA]
  | .attr n (some (.lit s2)) => fun _ => by simp [wtA]
  | .attr n (some (.container e)) => fun hc => by
    have h1 := wtE_noop h e (by simpa [callFreeA] using hc)
    simp [wtA, h1]
  | .spread e => fun hc => by
    have h1 := wtE_noop h e (by simpa [callFreeA] using hc)
    simp [wtA, h1]
termination_by x => sizeOf x

theorem wtAs_noop (h : CallHandler) : ∀ attrs : List JSXAttr,
    callFreeAs attrs = true → wtAs h false attrs = (attrs, false)
  | [] => fun _ => by simp [wtAs]
  | a :: rest => fun hc => by
    have hc2 : callFreeA a = true ∧ callFreeAs rest = true := by
      simpa [callFreeAs, Bool.and_eq_true] using hc
    have h1 := wtA_noop h a hc2.1
    have h2 := wtAs_noop h rest hc2.2
    simp [wtAs, h1, h2]
termination_by x => sizeOf x

theorem wtCh_noop (h : CallHandler) : ∀ chd : JSXChild,
    callFreeCh chd = true → wtCh h false chd = (chd, false)
  | .elem el => fun hc => by
    have h1 := wtElem_noop h el (by simpa [callFreeCh] using hc)
    simp [wtCh, h1]
  | .exprChild e => fun hc => by
    have h1 := wtE_noop h e (by simpa [callFreeCh] using hc)
    simp [wtCh, h1]
  | .textChild s2 => fun _ => by simp [wtCh]
termination_by x => sizeOf x

theorem wtChs_noop (h : CallHandler) : ∀ chs : List JSXChild,
    callFreeChs chs = true → wtChs h false chs = (chs, false)
  | [] => fun _ => by simp [wtChs]
  | chd :: rest => fun hc => by
    have hc2 : callFreeCh chd = true ∧ callFreeChs rest = true := by
      simpa [callFreeChs, Bool.and_eq_true] using hc
    have h1 := wtCh_noop h chd hc2.1
    have h2 := wtChs_noop h rest hc2.2
    simp [wtChs, h1, h2]
termination_by x => sizeOf x

theorem wtD_noop (h : CallHandler) : ∀ d : VarDtor,
    callFreeD d = true → wtD h false d = (d, false)
  | .mk pat init => fun hc => by
    have h1 := wtOE_noop h init (by simpa [callFreeD] using hc)
    simp [wtD, h1]
termination_by x => sizeOf x

theorem wtDs_noop (h : CallHandler) : ∀ ds : List VarDtor,
    callFreeDs ds = true → wtDs h false ds = (ds, false)
  | [] => fun _ => by simp [wtDs]
  | d :: rest => fun hc => by
    have hc2 : callFreeD d = true ∧ callFreeDs rest = true := by
      simpa [callFreeDs, Bool.and_eq_true] using hc
    have h1 := wtD_noop h d hc2.1
    have h2 := wtDs_noop h rest hc2.2
    simp [wtDs, h1, h2]
termination_by x => sizeOf x

theorem wtF_noop (h : CallHandler) : ∀ fd : ObjField,
    callFreeF fd = true → wtF h false fd = (fd, false)
  | .mk k v => fun hc => by
    have h1 := wtE_noop h v (by simpa [callFreeF] using hc)
    simp [wtF, h1]
termination_by x => sizeOf x

theorem wtFs_noop (h : CallHandler) : ∀ fs : List ObjField,
    callFreeFs fs = true → wtFs h false fs = (fs, false)
  | [] => fun _ => by simp [wtFs]
  | fd :: rest => fun hc => by
    have hc2 : callFreeF fd = true ∧ callFreeFs rest = true := by
      simpa [callFreeFs, Bool.and_eq_true] using hc
    have h1 := wtF_noop h fd hc2.1
    have h2 := wtFs_noop h rest hc2.2
    simp [wtFs, h1, h2]
termination_by x => sizeOf x

theorem wtM_noop (h : CallHandler) : ∀ m : ClassMethod,
    callFreeM m = true → wtM h false m = (m, false)
  | .mk k b => fun hc => by
    have h1 := wtSs_noop h b (by simpa [callFreeM] using hc)
    simp [wtM, h1]
termination_by x => sizeOf x

theorem wtMs_noop (h : CallHandler) : ∀ ms : List ClassMethod,
    callFreeMs ms = true → wtMs h false ms = (ms, false)
  | [] => fun _ => by simp [wtMs]
  | m :: rest => fun hc => by
    have hc2 : callFreeM m = true ∧ callFreeMs rest = true := by
      simpa [callFreeMs, Bool.and_eq_true] using hc
    have h1 := wtM_noop h m hc2.1
    have h2 := wtMs_noop h rest hc2.2
    simp [wtMs, h1, h2]
termination_by x => sizeOf x

end

/-- The synthesized provider element contains no call expression when the
wrapped element contains none. -/
theorem callFree_wrap (appName : String) (el : JSXElem)
    (hc : callFreeElem el = true) :
    callFreeE (wrapWithAartisanProvider appName (.jsx el)) = true := by
  simp [wrapWithAartisanProvider, callFreeE, callFreeElem, callFreeAs,
    callFreeA, providerConfigAttr, providerConfig, callFreeFs, callFreeF,
    callFreeChs, callFreeCh, hc]

/-- A createRoot-chain render call on which the handler declines (both at
the outer call and at the inner `createRoot` call) is left unchanged with
the flag unset, provided its arguments are call-free. -/
theorem wtCallCreateRoot_noop (h : CallHandler) (cargs args : List Expr)
    (h1 : h (.member (.call (.ident "createRoot") cargs) "render") args =
      none)
    (h2 : h (.ident "createRoot") cargs = none)
    (hc : callFreeEs cargs = true) (ha : callFreeEs args = true) :
    wtE h false
        (.call (.member (.call (.ident "createRoot") cargs) "render") args) =
      (.call (.member (.call (.ident "createRoot") cargs) "render") args,
       false) := by
  have hcargs := wtEs_noop h cargs hc
  have hargs := wtEs_noop h args ha
  simp [wtE, h1, h2, hcargs, hargs]

/-- A whole-program visit that leaves the single interesting expression
statement unchanged with the flag unset is a no-op on the program. -/
theorem wtProg_noop (h : CallHandler) (pre post : List Stmt) (e : Expr)
    (hPre : callFreeSs pre = true) (hPost : callFreeSs post = true)
    (hE : wtE h false e = (e, false)) :
    wtSs h false (pre ++ .exprStmt e :: post) =
      (pre ++ .exprStmt e :: post, false) := by
  have hp1 := wtSs_noop h pre hPre
  have hp2 := wtSs_noop h post hPost
  rw [wtSs_append, hp1]
  simp [wtSs, wtS, hE, hp2]

/-- A whole-program visit whose single interesting expression statement
fires sets the flag and leaves the suffix untouched. -/
theorem wtProg_fire (h : CallHandler) (pre post : List Stmt) (e e2 : Expr)
    (hPre : callFreeSs pre = true)
    (hE : wtE h false e = (e2, true)) :
    wtSs h false (pre ++ .exprStmt e :: post) =
      (pre ++ .exprStmt e2 :: post, true) := by
  have hp1 := wtSs_noop h pre hPre
  rw [wtSs_append, hp1]
  simp [wtSs, wtS, hE, wtSs_true]

/-- C3: the render-root wrapping phase never nests two providers.  For an
entry file whose only call is a `createRoot(...).render(arg)` chain with a
JSX argument and otherwise call-free code: one run wraps the argument in a
single `AartisanProvider` element (first conjunct); a second run leaves
that output byte-identical, so exactly one provider layer remains (second
conjunct); the guard itself skips whenever the first argument is already a
provider element (third conjunct); and for a JSX expression container the
guard inspects the inner expression (fourth conjunct). -/
theorem renderWrapNoDoubleWrap :
    ∀ (appName : String) (pre post : List Stmt) (cargs rest : List Expr)
      (el : JSXElem),
      callFreeSs pre = true →
      callFreeSs post = true →
      callFreeEs cargs = true →
      callFreeEs rest = true →
      callFreeElem el = true →
      isWrappedWithAartisanProvider (.jsx el) = false →
      (integrateRenderWrap appName
          (pre ++ .exprStmt
            (.call (.member (.call (.ident "createRoot") cargs) "render")
              (.jsx el :: rest)) :: post) =
        pre ++ .exprStmt
          (.call (.member (.call (.ident "createRoot") cargs) "render")
            (.jsx (.mk "AartisanProvider" [providerConfigAttr appName]
              [.elem el] false) :: rest)) :: post) ∧
      (integrateRenderWrap appName
          (pre ++ .exprStmt
            (.call (.member (.call (.ident "createRoot") cargs) "render")
              (.jsx (.mk "AartisanProvider" [providerConfigAttr appName]
                [.elem el] false) :: rest)) :: post) =
        pre ++ .exprStmt
          (.call (.member (.call (.ident "createRoot") cargs) "render")
            (.jsx (.mk "AartisanProvider" [providerConfigAttr appName]
              [.elem el] false) :: rest)) :: post) ∧
      (∀ (a : Expr) (args2 : List Expr),
        isWrappedWithAartisanProvider a = true →
        wrapFirstArg appName (a :: args2) = none) ∧
      (∀ el2 : JSXElem,
        isWrappedWithAartisanProvider (.jsxContainer (.jsx el2)) =
          isWrappedWithAartisanProvider (.jsx el2)) := by
  intro appName pre post cargs rest el hPre hPost hCargs hRest hEl hW
  refine ⟨?_, ?_, ?_, ?_⟩
  · have hfire : wtE (pattern1Handle appName) false
        (.call (.member (.call (.ident "createRoot") cargs) "render")
          (.jsx el :: rest)) =
        (.call (.member (.call (.ident "createRoot") cargs) "render")
          (.jsx (.mk "AartisanProvider" [providerConfigAttr appName]
            [.elem el] false) :: rest), true) := by
      simp [wtE, pattern1Handle, wrapFirstArg, hW, wrapWithAartisanProvider]
    have hp := wtProg_fire (pattern1Handle appName) pre post _ _ hPre hfire
    simp [integrateRenderWrap, hp]
  · have hWfree : callFreeE (.jsx (.mk "AartisanProvider"
        [providerConfigAttr appName] [.elem el] false)) = true := by
      have hwf := callFree_wrap appName el hEl
      simpa [wrapWithAartisanProvider] using hwf
    have hargs2 : callFreeEs (.jsx (.mk "AartisanProvider"
        [providerConfigAttr appName] [.elem el] false) :: rest) = true := by
      simp only [callFreeEs, Bool.and_eq_true]
      exact ⟨hWfree, hRest⟩
    have n11 : pattern1Handle appName
        (.member (.call (.ident "createRoot") cargs) "render")
        (.jsx (.mk "AartisanProvider" [providerConfigAttr appName]
          [.elem el] false) :: rest) = none := by
      simp [pattern1Handle, wrapFirstArg, isWrappedWithAartisanProvider]
    have n12 : pattern1Handle appName (.ident "createRoot") cargs = none :=
      rfl
    have s1 := wtCallCreateRoot_noop (pattern1Handle appName) cargs _
      n11 n12 hCargs hargs2
    have p1 := wtProg_noop (pattern1Handle appName) pre post _ hPre hPost s1
    have n21 : pattern2Handle appName
        (.member (.call (.ident "createRoot") cargs) "render")
        (.jsx (.mk "AartisanProvider" [providerConfigAttr appName]
          [.elem el] false) :: rest) = none := rfl
    have n22 : pattern2Handle appName (.ident "createRoot") cargs = none :=
      rfl
    have s2 := wtCallCreateRoot_noop (pattern2Handle appName) cargs _
      n21 n22 hCargs hargs2
    have p2 := wtProg_noop (pattern2Handle appName) pre post _ hPre hPost s2
    have n31 : pattern3Handle appName
        (.member (.call (.ident "createRoot") cargs) "render")
        (.jsx (.mk "AartisanProvider" [providerConfigAttr appName]
          [.elem el] false) :: rest) = none := rfl
    have n32 : pattern3Handle appName (.ident "createRoot") cargs = none := by
      simp [pattern3Handle]
    have s3 := wtCallCreateRoot_noop (pattern3Handle appName) cargs _
      n31 n32 hCargs hargs2
    have p3 := wtProg_noop (pattern3Handle appName) pre post _ hPre hPost s3
    have n41 : pattern4Handle appName
        (.member (.call (.ident "createRoot") cargs) "render")
        (.jsx (.mk "AartisanProvider" [providerConfigAttr appName]
          [.elem el] false) :: rest) = none := by
      simp [pattern4Handle]
    have n42 : pattern4Handle appName (.ident "createRoot") cargs = none := by
      simp [pattern4Handle]
    have s4 := wtCallCreateRoot_noop (pattern4Handle appName) cargs _
      n41 n42 hCargs hargs2
    have p4 := wtProg_noop (pattern4Handle appName) pre post _ hPre hPost s4
    simp [integrateRenderWrap, p1, p2, p3, p4]
  · intro a args2 hA
    simp [wrapFirstArg, hA]
  · intro el2
    rfl

theorem renderWrapNoDoubleWrap_witness :
    (callFreeSs [.otherStmt] = true ∧
      callFreeEs [Expr.ident "rootEl"] = true ∧
      callFreeElem (.mk "App" [] [] true) = true ∧
      isWrappedWithAartisanProvider (.jsx (.mk "App" [] [] true)) = false) ∧
    (integrateRenderWrap "myapp"
        [.otherStmt,
         .exprStmt
          (.call (.member (.call (.ident "createRoot") [.ident "rootEl"])
            "render") [.jsx (.mk "App" [] [] true)])] =
      [.otherStmt,
       .exprStmt
        (.call (.member (.call (.ident "createRoot") [.ident "rootEl"])
          "render")
          [.jsx (.mk "AartisanProvider" [providerConfigAttr "myapp"]
            [.elem (.mk "App" [] [] true)] false)])]) ∧
    (integrateRenderWrap "myapp"
        [.otherStmt,
         .exprStmt
          (.call (.member (.call (.ident "createRoot") [.ident "rootEl"])
            "render")
            [.jsx (.mk "AartisanProvider" [providerConfigAttr "myapp"]
              [.elem (.mk "App" [] [] true)] false)])] =
      [.otherStmt,
       .exprStmt
        (.call (.member (.call (.ident "createRoot") [.ident "rootEl"])
          "render")
          [.jsx (.mk "AartisanProvider" [providerConfigAttr "myapp"]
            [.elem (.mk "App" [] [] true)] false)])]) ∧
    wrapFirstArg "myapp"
        [.jsx (.mk "AartisanProvider" [] [] false), .ident "other"] =
      none :=
  ⟨⟨by decide, by decide, by decide, by decide⟩,
   (renderWrapNoDoubleWrap "myapp" [.otherStmt] [] [.ident "rootEl"] []
      (.mk "App" [] [] true) (by decide) (by decide) (by decide) (by decide)
      (by decide) (by decide)).1,
   (renderWrapNoDoubleWrap "myapp" [.otherStmt] [] [.ident "rootEl"] []
      (.mk "App" [] [] true) (by decide) (by decide) (by decide) (by decide)
      (by decide) (by decide)).2.1,
   (renderWrapNoDoubleWrap "myapp" [.otherStmt] [] [.ident "rootEl"] []
      (.mk "App" [] [] true) (by decide) (by decide) (by decide) (by decide)
      (by decide) (by decide)).2.2.1
     (.jsx (.mk "AartisanProvider" [] [] false)) [.ident "other"]
     (by decide)⟩

end Aartisan
